import Mathlib

/-!
Shallow embedding of the deterministic extraction engine of this repository
(`src/cri_benimallal.py` and `src/extract_projects.py`): the numeric
normaliser, the investment-amount / area / ROI resolution chains, record
assembly (reference building, range bucketing, ROI-payback cross fill) and
the dataset merge engine, together with theorems settling the claims of the
specification.

Python floats are modelled as exact rationals (`ℚ`); Python's `round(x, 2)`
(banker's rounding) is modelled by `pyRound2`.  Python regular expressions
are modelled by an executable backtracking matcher (`matRE`) with Python
`re.search` semantics (leftmost match, greedy/lazy backtracking order,
`IGNORECASE` via a case-folding character test), over which each pattern of
the source is transcribed node by node.
-/

/-! ### Character helpers (Python `\s`, `\w`, lower/upper casing) -/

/-- Python `\s` for the texts handled here: space, tab, newline, carriage
return, vertical tab, form feed. -/
def isPySpace (c : Char) : Bool :=
  c == ' ' || c == '\t' || c == '\n' || c == '\r' || c == '\x0b' || c == '\x0c'

/-- Lower-casing as used by `re.IGNORECASE`, covering ASCII plus the accented
letters appearing in the source's patterns. -/
def pyLower (c : Char) : Char :=
  match c with
  | 'À' => 'à' | 'Â' => 'â' | 'Ä' => 'ä' | 'É' => 'é' | 'È' => 'è' | 'Ê' => 'ê'
  | 'Ë' => 'ë' | 'Ï' => 'ï' | 'Î' => 'î' | 'Ô' => 'ô' | 'Ö' => 'ö' | 'Ù' => 'ù'
  | 'Û' => 'û' | 'Ü' => 'ü' | 'Ç' => 'ç'
  | _ => c.toLower

/-- Python `\w` on the texts handled here (`²` is a Unicode digit, hence a
word character for Python's `re`). -/
def wordCharB (c : Char) : Bool :=
  c.isAlphanum || c == '_' || c == '²'

/-- Python's substring containment (`needle in hay`) and `str.replace`. -/
def startsWithL : List Char → List Char → Bool
  | [], _ => true
  | _ :: _, [] => false
  | a :: as, b :: bs => a == b && startsWithL as bs

def infixOfL (needle : List Char) : List Char → Bool
  | [] => needle.isEmpty
  | c :: rest => startsWithL needle (c :: rest) || infixOfL needle rest

def replaceLAux (needle repl : List Char) : Nat → List Char → List Char
  | 0, s => s
  | _ + 1, [] => []
  | fuel + 1, c :: rest =>
    if startsWithL needle (c :: rest) && !needle.isEmpty then
      repl ++ replaceLAux needle repl fuel ((c :: rest).drop needle.length)
    else c :: replaceLAux needle repl fuel rest

/-- Python `str.replace` (all non-overlapping occurrences, left to right). -/
def replaceS (s needle repl : String) : String :=
  String.mk (replaceLAux needle.data repl.data (s.data.length + 1) s.data)

/-- Python `str.strip()`. -/
def pyStrip (s : String) : String :=
  String.mk ((s.data.dropWhile isPySpace).reverse.dropWhile isPySpace).reverse

/-- Python `str.split(sep)` for a one-character separator. -/
def splitOnChar (sep : Char) : List Char → List (List Char)
  | [] => [[]]
  | c :: rest =>
    let r := splitOnChar sep rest
    if c == sep then [] :: r
    else
      match r with
      | h :: t => (c :: h) :: t
      | [] => [[c]]

def splitLines (s : String) : List String :=
  (splitOnChar (Char.ofNat 10) s.data).map String.mk

/-- Python `" ".join(words)`. -/
def joinWithSpace : List String → String
  | [] => ""
  | [w] => w
  | w :: rest => w ++ " " ++ joinWithSpace rest

/-! ### Python `float()` on the digit/space/dot strings captured by the
numeric regexes, and Python `round(x, 2)` -/

/-- Numeric value of a list of decimal digit characters. -/
def digitsVal (l : List Char) : ℕ :=
  l.foldl (fun acc c => acc * 10 + (c.toNat - 48)) 0

/-- `float(s)` for the strings reachable here (digits and at most one dot
after the source's `replace` calls); anything else raises `ValueError`,
modelled as `none`. -/
def pyFloat (l : List Char) : Option ℚ :=
  if (!l.isEmpty) && l.all (fun c => c.isDigit || c == '.')
      && decide (l.count '.' ≤ 1) && l.any (fun c => c.isDigit) then
    let ip := l.takeWhile (fun c => c != '.')
    let fp := (l.dropWhile (fun c => c != '.')).drop 1
    some ((digitsVal ip : ℚ) + (digitsVal fp : ℚ) / (10 : ℚ) ^ fp.length)
  else none

/-- `float(group.replace(",", "."))`, the conversion used for the
`\d+(?:[.,]\d+)?` captures. -/
def parseNum (s : String) : Option ℚ :=
  pyFloat (replaceS s "," ".").data

/-- `float(group.replace(" ", "").replace(",", "."))`, used for the area
captures `\d+(?:[\s.,]\d+)?`. -/
def parseNumSp (s : String) : Option ℚ :=
  pyFloat (replaceS (replaceS s " " "") "," ".").data

/-- `float(group.replace(" ", "").replace(" ", "").replace(",", "."))`,
used for the `[\d\s.,]+` captures of the DH branches. -/
def parseDh (s : String) : Option ℚ :=
  pyFloat (replaceS (replaceS (replaceS s " " "") " " "") "," ".").data

/-- Round-half-to-even to an integer (Python's `round`). -/
def roundHalfEven (x : ℚ) : ℤ :=
  let f := ⌊x⌋
  let r := x - f
  if r < 1/2 then f
  else if 1/2 < r then f + 1
  else if f % 2 = 0 then f else f + 1

/-- Python `round(x, 2)`. -/
def pyRound2 (x : ℚ) : ℚ :=
  (roundHalfEven (x * 100) : ℚ) / 100

/-! ### Whitespace collapsing and word splitting -/

/-- `re.sub(r"\s+", rep, ·)` for a single replacement character: collapse
every maximal whitespace run to `rep`. -/
def collapseWsTo (rep : Char) : List Char → List Char
  | [] => []
  | [c] => if isPySpace c then [rep] else [c]
  | c :: d :: rest =>
    if isPySpace c then
      if isPySpace d then collapseWsTo rep (d :: rest)
      else rep :: collapseWsTo rep (d :: rest)
    else c :: collapseWsTo rep (d :: rest)

/-- Python `str.split()` (split on whitespace runs, no empty fields). -/
def splitWordsAux : List Char → List Char → List String
  | [], acc => if acc.isEmpty then [] else [String.mk acc.reverse]
  | c :: rest, acc =>
    if isPySpace c then
      if acc.isEmpty then splitWordsAux rest []
      else String.mk acc.reverse :: splitWordsAux rest []
    else splitWordsAux rest (c :: acc)

def splitWords (s : String) : List String :=
  splitWordsAux s.data []


namespace CriBenimallal

/-! ### Configuration constants of `cri_benimallal.py` -/

def SOURCE_TYPE : String := "CRI Béni Mellal-Khénifra"

def regionBK : String := "Béni Mellal-Khénifra"

def INV_LOW_MAX : ℚ := 5000000

def INV_MEDIUM_MAX : ℚ := 20000000

/-! ### `clean_text` and `_dedupe_repeated_title` -/

/-- `clean_text`: `re.sub(r"\s+", " ", text).strip()`. -/
def clean_text (s : String) : String :=
  pyStrip (String.mk (collapseWsTo ' ' s.data))

/-- `_dedupe_repeated_title`: if the cleaned title has at least 6 words, an
even word count, and its two halves are equal word lists, keep one half. -/
def dedupe_repeated_title (title : String) : String :=
  let t := clean_text title
  if t = "" then t
  else
    let words := splitWords t
    if 6 ≤ words.length ∧ words.length % 2 = 0 then
      let half := words.length / 2
      if words.take half = words.drop half then
        joinWithSpace (words.take half)
      else t
    else t

/-! ### `investment_range_label`, `min_investment_mad` -/

def investment_range_label (estimated_mad : Option ℚ) : Option String :=
  match estimated_mad with
  | none => none
  | some x =>
    if x < INV_LOW_MAX then some "Low"
    else if x ≤ INV_MEDIUM_MAX then some "Medium"
    else some "High"

def min_investment_mad (estimated_mad : Option ℚ) : Option ℚ :=
  match estimated_mad with
  | none => none
  | some x => some (pyRound2 (x * (8/10)))

/-! ### The ROI / payback cross fill of `extract_numeric_fields`
(lines 500-515): fill `roi_estimated` from a positive payback, then fill
`payback_period_years` from a rate lying in (0, 100]. -/

def fillRoiPayback (roi pb : Option ℚ) : Option ℚ × Option ℚ :=
  let roi' : Option ℚ :=
    match roi, pb with
    | none, some p => if 0 < p then some (pyRound2 (100 / p)) else none
    | _, _ => roi
  let pb' : Option ℚ :=
    match pb, roi' with
    | none, some r => if 0 < r ∧ r ≤ 100 then some (pyRound2 (100 / r)) else none
    | _, _ => pb
  (roi', pb')

/-! ### Reference normalisation (`_remove_accents`, `normalize_for_reference`)
and reference assembly (`process_one_pdf`, lines 554-561) -/

/-- The precomposed accented letters (with their base letters) that NFD
decomposition plus combining-mark stripping resolves, for the French text
range handled by this source. -/
def accentPairs : List (Char × Char) :=
  [('à','a'),('â','a'),('ä','a'),('á','a'),('é','e'),('è','e'),('ê','e'),('ë','e'),
   ('ï','i'),('î','i'),('í','i'),('ô','o'),('ö','o'),('ó','o'),('ù','u'),('û','u'),
   ('ü','u'),('ú','u'),('ç','c'),('ñ','n'),
   ('À','A'),('Â','A'),('Ä','A'),('Á','A'),('É','E'),('È','E'),('Ê','E'),('Ë','E'),
   ('Ï','I'),('Î','I'),('Í','I'),('Ô','O'),('Ö','O'),('Ó','O'),('Ù','U'),('Û','U'),
   ('Ü','U'),('Ú','U'),('Ç','C'),('Ñ','N')]

def stripAccent (c : Char) : Char :=
  (((accentPairs.find? (fun p => p.1 == c)).map (fun p => p.2)).getD c)

/-- Models `_remove_accents` (NFD normalisation, then dropping combining
marks) on strings of ASCII and precomposed Latin accented characters. -/
def remove_accents (s : String) : String :=
  String.mk (s.data.map stripAccent)

/-- Python `\w` restricted to the ASCII range produced after accent
removal. -/
def wordCharRef (c : Char) : Bool :=
  c.isAlphanum || c == '_'

/-- `.strip("-")`. -/
def dropHyphensEnds (l : List Char) : List Char :=
  ((l.dropWhile (fun c => c == '-')).reverse.dropWhile (fun c => c == '-')).reverse

/-- `str.upper()` on the ASCII range reachable after accent stripping. -/
def pyUpperChar (c : Char) : Char := c.toUpper

/-- `normalize_for_reference`: strip, remove accents, drop characters
outside `\w`, whitespace and hyphen, collapse whitespace runs to hyphens,
strip outer hyphens, upper-case. -/
def normalize_for_reference (s : String) : String :=
  if pyStrip s = "" then ""
  else
    let l := (remove_accents (pyStrip s)).data
    let l := l.filter (fun c => wordCharRef c || isPySpace c || c == '-')
    let l := collapseWsTo '-' l
    let l := dropHyphensEnds l
    String.mk (l.map pyUpperChar)

/-- Decimal rendering of a natural number (the `f"...{project_id}"`
interpolation). -/
def natDigitsAux : Nat → Nat → List Char → List Char
  | 0, _, acc => acc
  | fuel + 1, n, acc =>
    let d := Char.ofNat (48 + n % 10)
    if n < 10 then d :: acc else natDigitsAux fuel (n / 10) (d :: acc)

def natToString (n : Nat) : String :=
  String.mk (natDigitsAux (n + 1) n [])

/-- Reference assembly of `process_one_pdf`: region token, title token and
numeric id joined with hyphens; if longer than 100 characters, rebuilt with
the title token sliced to its first 50 characters. -/
def projectReference (title : String) (project_id : Nat) : String :=
  let ref_title := normalize_for_reference title
  let ref_region := normalize_for_reference regionBK
  let reference := ref_region ++ "-" ++ ref_title ++ "-" ++ natToString project_id
  if 100 < reference.length then
    ref_region ++ "-" ++ String.mk (ref_title.data.take 50) ++ "-" ++ natToString project_id
  else reference

/-! ### The dataset merge engine (`_safe_read_existing_output`,
`_max_project_id`, `_remove_rows_for_this_source`, `process_pdfs`) -/

/-- One persisted CSV row.  `project_id` is `none` when the cell is not
numeric (`pd.to_numeric(..., errors="coerce")` yields NaN there); the
remaining output columns are abstracted into `payload`. -/
structure OutRow where
  project_id : Option ℤ
  source_type : String
  region : String
  payload : String
deriving DecidableEq

/-- The persisted table: its rows plus which of the two columns used by the
merge filter are present in the schema. -/
structure OutTable where
  hasSourceTypeCol : Bool
  hasRegionCol : Bool
  rows : List OutRow
deriving DecidableEq

/-- State of the persisted CSV file at run start. -/
inductive PersistedCsv where
  | missing
  | unreadable
  | ok (t : OutTable)

/-- `_safe_read_existing_output`: a missing file and a file `pd.read_csv`
fails on both give an empty frame with the canonical columns (the latter
with a printed warning); the run continues either way. -/
def safe_read_existing_output : PersistedCsv → OutTable
  | .missing => ⟨true, true, []⟩
  | .unreadable => ⟨true, true, []⟩
  | .ok t => t

/-- `_max_project_id`: maximum of the numeric `project_id` values, `0` when
there are none. -/
def max_project_id (t : OutTable) : ℤ :=
  match t.rows.filterMap (fun r => r.project_id) with
  | [] => 0
  | v :: vs => vs.foldl max v

/-- `process_pdfs`: `next_id = _max_project_id(existing) + 1`. -/
def next_project_id (csv : PersistedCsv) : ℤ :=
  max_project_id (safe_read_existing_output csv) + 1

/-- The id handout of `process_pdfs`: `project_id = next_id + idx` over the
sorted file list, in enumeration order. -/
def assignIds : ℤ → List String → List (String × ℤ)
  | _, [] => []
  | n, f :: fs => (f, n) :: assignIds (n + 1) fs

def allocateIds (csv : PersistedCsv) (pdf_files : List String) : List (String × ℤ) :=
  assignIds (next_project_id csv) pdf_files

/-- `_remove_rows_for_this_source`: drop the rows whose `source_type` equals
this script's tag; when that column is absent fall back to dropping rows
whose `region` equals this script's region; with neither column keep all. -/
def remove_rows_for_this_source (t : OutTable) : List OutRow :=
  if t.rows.isEmpty then []
  else if t.hasSourceTypeCol then
    t.rows.filter (fun r => r.source_type != SOURCE_TYPE)
  else if t.hasRegionCol then
    t.rows.filter (fun r => r.region != regionBK)
  else t.rows

/-- The concatenation performed at the end of `process_pdfs`: kept rows of
other sources followed by the freshly extracted rows. -/
def mergeDataset (existing : OutTable) (new_rows : List OutRow) : List OutRow :=
  remove_rows_for_this_source existing ++ new_rows

end CriBenimallal

namespace ExtractProjects

/-! ### The corresponding computed fields of `extract_projects.py` -/

def INV_LOW_MAX : ℚ := 5000000

def INV_MEDIUM_MAX : ℚ := 20000000

def ROI_ASSUMPTION_YEARS : ℚ := 6

def investment_range_label (estimated_mad : Option ℚ) : Option String :=
  match estimated_mad with
  | none => none
  | some x =>
    if x < INV_LOW_MAX then some "Low"
    else if x ≤ INV_MEDIUM_MAX then some "Medium"
    else some "High"

/-- `roi_estimated_only`: `100/payback` when a positive payback was
extracted, the fixed assumption `100/6` otherwise — never `None`. -/
def roi_estimated_only (payback_years : Option ℚ) : Option ℚ :=
  match payback_years with
  | some p => if 0 < p then some (100 / p) else some (100 / ROI_ASSUMPTION_YEARS)
  | none => some (100 / ROI_ASSUMPTION_YEARS)

def min_investment_mad (estimated_mad : Option ℚ) : Option ℚ :=
  match estimated_mad with
  | none => none
  | some x => some (pyRound2 (x * (8/10)))

end ExtractProjects

/-! ### A small backtracking regex matcher with Python `re.search` semantics

The matcher works on `List Char` in continuation-passing style and returns
the first success in Python's backtracking order (alternation left first,
greedy quantifiers longest first, lazy quantifiers shortest first).  `wb` is
`\b`, `look` a positive lookahead `(?=...)`, `eos` the `$` anchor (end of
string, or just before a final newline).  The fuel argument strictly
decreases at every call; callers pass a fuel that is far larger than the
deepest possible backtracking stack for the texts at hand, so the matcher
computes the unrestricted fixpoint on them. -/

inductive RE where
  | eps : RE
  | cls : (Char → Bool) → RE
  | seq : RE → RE → RE
  | alt : RE → RE → RE
  | star : RE → RE
  | lazystar : RE → RE
  | opt : RE → RE
  | grp : Nat → RE → RE
  | wb : RE
  | look : RE → RE
  | eos : RE

/-- Captured groups: group number paired with captured characters; a later
entry overrides an earlier one for the same group (Python keeps the last
capture). -/
abbrev Caps := List (Nat × List Char)

abbrev MRes := Option (Caps × List Char × Option Char)

/-- `\b`: word character on exactly one side of the current position. -/
def boundaryOK (prev : Option Char) (s : List Char) : Bool :=
  let l := match prev with | some c => wordCharB c | none => false
  let r := match s with | c :: _ => wordCharB c | [] => false
  l != r

def matRE : Nat → RE → List Char → Option Char → Caps →
    (Caps → List Char → Option Char → MRes) → MRes
  | 0, _, _, _, _, _ => none
  | fuel + 1, re, s, prev, caps, k =>
    match re with
    | .eps => k caps s prev
    | .cls f =>
      match s with
      | [] => none
      | c :: rest => if f c then k caps rest (some c) else none
    | .seq a b =>
      matRE fuel a s prev caps (fun caps1 s1 p1 => matRE fuel b s1 p1 caps1 k)
    | .alt a b =>
      (matRE fuel a s prev caps k).orElse (fun _ => matRE fuel b s prev caps k)
    | .star a =>
      (matRE fuel a s prev caps (fun caps1 s1 p1 =>
        if s1.length < s.length then matRE fuel (.star a) s1 p1 caps1 k
        else none)).orElse (fun _ => k caps s prev)
    | .lazystar a =>
      (k caps s prev).orElse (fun _ =>
        matRE fuel a s prev caps (fun caps1 s1 p1 =>
          if s1.length < s.length then matRE fuel (.lazystar a) s1 p1 caps1 k
          else none))
    | .opt a =>
      (matRE fuel a s prev caps k).orElse (fun _ => k caps s prev)
    | .grp n a =>
      matRE fuel a s prev caps (fun caps1 s1 p1 =>
        k (caps1 ++ [(n, s.take (s.length - s1.length))]) s1 p1)
    | .wb => if boundaryOK prev s then k caps s prev else none
    | .look a =>
      match matRE fuel a s prev caps (fun caps1 s1 p1 => some (caps1, s1, p1)) with
      | some _ => k caps s prev
      | none => none
    | .eos =>
      match s with
      | [] => k caps s prev
      | [c] => if c == '\n' then k caps s prev else none
      | _ => none

/-- Try a full backtracking match starting exactly at the head of `s`. -/
def matchAtRE (r : RE) (s : List Char) (prev : Option Char) : MRes :=
  matRE (1000 * (s.length + 2)) r s prev [] (fun caps s1 p1 => some (caps, s1, p1))

/-- `re.search`: try each start position from the left, first match wins. -/
def searchAux (r : RE) : List Char → Option Char → Option Caps
  | [], prev =>
    match matchAtRE r [] prev with
    | some (caps, _, _) => some caps
    | none => none
  | c :: rest, prev =>
    match matchAtRE r (c :: rest) prev with
    | some (caps, _, _) => some caps
    | none => searchAux r rest (some c)

def reSearch (r : RE) (s : String) : Option Caps :=
  searchAux r s.data none

/-- `match.group(n)` (last capture of group `n`), absent when the group did
not participate in the match. -/
def capStr (caps : Caps) (n : Nat) : Option String :=
  ((caps.reverse.find? (fun x => x.1 == n)).map (fun x => String.mk x.2))

def searchG1 (r : RE) (s : String) : Option String :=
  (reSearch r s).bind (fun caps => capStr caps 1)

def searchG2 (r : RE) (s : String) : Option (String × String) :=
  (reSearch r s).bind (fun caps =>
    match capStr caps 1, capStr caps 2 with
    | some a, some b => some (a, b)
    | _, _ => none)

def searchG1o2 (r : RE) (s : String) : Option (String × Option String) :=
  (reSearch r s).bind (fun caps =>
    (capStr caps 1).map (fun a => (a, capStr caps 2)))

/-- `re.sub`: replace every non-overlapping match, scanning left to right
(all patterns substituted here consume at least one character). -/
def subREAux (r : RE) (repl : List Char → List Char) :
    Nat → List Char → Option Char → List Char
  | 0, s, _ => s
  | _ + 1, [], _ => []
  | fuel + 1, c :: rest, prev =>
    match matchAtRE r (c :: rest) prev with
    | some (_, s1, p1) =>
      if s1.length < (c :: rest).length then
        repl ((c :: rest).take ((c :: rest).length - s1.length)) ++
          subREAux r repl fuel s1 p1
      else c :: subREAux r repl fuel rest (some c)
    | none => c :: subREAux r repl fuel rest (some c)

def reSub (r : RE) (repl : List Char → List Char) (s : String) : String :=
  String.mk (subREAux r repl (s.data.length + 1) s.data none)

/-! ### Pattern building blocks -/

/-- Sequence a list of nodes. -/
def cat (l : List RE) : RE :=
  l.foldr .seq .eps

/-- A literal character under `re.IGNORECASE`. -/
def chI (c : Char) : RE :=
  .cls (fun x => pyLower x == pyLower c)

/-- A literal word under `re.IGNORECASE`. -/
def litI (s : String) : RE :=
  cat (s.data.map chI)

def digitRE : RE := .cls Char.isDigit

def wsRE : RE := .cls isPySpace

/-- `\s*` -/
def ws0 : RE := .star wsRE

/-- `\s+` -/
def ws1 : RE := .seq wsRE (.star wsRE)

def plusRE (r : RE) : RE := .seq r (.star r)

/-- `\d+(?:[.,]\d+)?` -/
def num1 : RE :=
  .seq (plusRE digitRE)
    (.opt (.seq (.cls (fun c => c == '.' || c == ',')) (plusRE digitRE)))

/-- `\d+(?:[\s.,]\d+)?` (the area captures also admit a space separator) -/
def num2 : RE :=
  .seq (plusRE digitRE)
    (.opt (.seq (.cls (fun c => c == '.' || c == ',' || isPySpace c)) (plusRE digitRE)))

/-- `(?:-|à)` -/
def dashOrA : RE := .alt (chI '-') (chI 'à')

/-- `[:\-]` -/
def colonDash : RE := .cls (fun c => c == ':' || c == '-')

/-- `[\d\s.,]` -/
def dhCls : RE := .cls (fun c => c.isDigit || isPySpace c || c == '.' || c == ',')

/-- `(?:Mns?|Mn)` (equivalently `Mn` with optional `s`) -/
def mnTok : RE := cat [litI "Mn", .opt (chI 's')]

/-- `.` without `DOTALL` -/
def dotRE : RE := .cls (fun c => c != '\n')

/-- `.` with `DOTALL` -/
def dotAllRE : RE := .cls (fun _ => true)

namespace CriBenimallal

/-! ### `_norm` of `extract_numeric_fields` (lines 312-337): bullet/NBSP and
dash unification, collapsing letter-spaced unit tokens, whitespace
collapsing -/

/-- `\bM\s*D\s*H\s*S?\b` -/
def reSpacedMDH : RE :=
  cat [.wb, chI 'M', ws0, chI 'D', ws0, chI 'H', ws0, .opt (chI 'S'), .wb]

/-- `\bP\s*B\s*P\b` -/
def reSpacedPBP : RE :=
  cat [.wb, chI 'P', ws0, chI 'B', ws0, chI 'P', .wb]

/-- `\bT\s*R\s*I\b` -/
def reSpacedTRI : RE :=
  cat [.wb, chI 'T', ws0, chI 'R', ws0, chI 'I', .wb]

/-- `\bC\s*A\b` -/
def reSpacedCA : RE :=
  cat [.wb, chI 'C', ws0, chI 'A', .wb]

/-- `\bD\s*H\s*S\b` -/
def reSpacedDHS : RE :=
  cat [.wb, chI 'D', ws0, chI 'H', ws0, chI 'S', .wb]

/-- `\bD\s*H\b` -/
def reSpacedDH : RE :=
  cat [.wb, chI 'D', ws0, chI 'H', .wb]

/-- `\bK\s*D\s*H\s*S\b` -/
def reSpacedKDHS : RE :=
  cat [.wb, chI 'K', ws0, chI 'D', ws0, chI 'H', ws0, chI 'S', .wb]

/-- `\bP\s*B\s*0\s*P\b` -/
def reSpacedPB0P : RE :=
  cat [.wb, chI 'P', ws0, chI 'B', ws0, chI '0', ws0, chI 'P', .wb]

/-- `\bPB0P\b` -/
def rePB0P : RE :=
  cat [.wb, litI "PB0P", .wb]

/-- The `_norm` pre-normalisation: NBSP/bullet characters to spaces, the
replacement character and dash variants to `-`, letter-spaced unit tokens
collapsed, whitespace runs collapsed to single spaces. -/
def normText (s : String) : String :=
  let s := replaceS (replaceS (replaceS s " " " ") "" " ") "•" " "
  let s := replaceS s "�" "-"
  let s := replaceS (replaceS (replaceS s "–" "-") "—" "-") "−" "-"
  let s := reSub reSpacedMDH (fun m => m.filter (fun c => !isPySpace c)) s
  let s := reSub reSpacedPBP (fun _ => "PBP".data) s
  let s := reSub reSpacedTRI (fun _ => "TRI".data) s
  let s := reSub reSpacedCA (fun _ => "CA".data) s
  let s := reSub reSpacedDHS (fun _ => "DHS".data) s
  let s := reSub reSpacedDH (fun _ => "DH".data) s
  let s := reSub reSpacedKDHS (fun _ => "KDHS".data) s
  let s := reSub reSpacedPB0P (fun _ => "PBP".data) s
  let s := reSub rePB0P (fun _ => "PBP".data) s
  let s := reSub ws1 (fun _ => [' ']) s
  s

/-! ### The investment-amount patterns (lines 341-405) -/

/-- `(\d+(?:[.,]\d+)?)\s*(?:-|à)\s*(\d+(?:[.,]\d+)?)\s*(?:Mns?|Mn)?\s*MDH(?:S)?\b` -/
def reMdhRange : RE :=
  cat [.grp 1 num1, ws0, dashOrA, ws0, .grp 2 num1, ws0, .opt mnTok, ws0,
       litI "MDH", .opt (chI 'S'), .wb]

/-- `(\d+(?:[.,]\d+)?)\s*(?:-|à)\s*(\d+(?:[.,]\d+)?)\s*KDHS?\b` -/
def reKdhsRange : RE :=
  cat [.grp 1 num1, ws0, dashOrA, ws0, .grp 2 num1, ws0, litI "KDH",
       .opt (chI 'S'), .wb]

/-- `\b(\d+(?:[.,]\d+)?)\s*KDHS?\b` -/
def reKdhsSingle : RE :=
  cat [.wb, .grp 1 num1, ws0, litI "KDH", .opt (chI 'S'), .wb]

/-- `(?:INVESTISSEMENT|D['’]INVESTISSEMENT)` -/
def reInvLabel : RE :=
  .alt (litI "INVESTISSEMENT")
    (cat [chI 'D', .cls (fun c => c == Char.ofNat 39 || c == '’'), litI "INVESTISSEMENT"])

/-- `(?:INVESTISSEMENT|D['’]INVESTISSEMENT)\s*[:\-]?\s*(\d+(?:[.,]\d+)?)\s*(?:Mns?|Mn)?\s*MDH(?:S)?\b` -/
def reMdhSingleLab : RE :=
  cat [reInvLabel, ws0, .opt colonDash, ws0, .grp 1 num1, ws0, .opt mnTok, ws0,
       litI "MDH", .opt (chI 'S'), .wb]

/-- `(\d+(?:[.,]\d+)?)\s*(?:Mns?|Mn)?\s*MDH(?:S)?\b` -/
def reMdhSingleBare : RE :=
  cat [.grp 1 num1, ws0, .opt mnTok, ws0, litI "MDH", .opt (chI 'S'), .wb]

/-- `-\s*([\d\s.,]+)\s*DHS?\s*-\s*CA\b` -/
def reDhCA : RE :=
  cat [chI '-', ws0, .grp 1 (plusRE dhCls), ws0, litI "DH", .opt (chI 'S'),
       ws0, chI '-', ws0, litI "CA", .wb]

/-- `(?:INVESTISSEMENT|D['’]INVESTISSEMENT)\b.*?([\d\s.,]+)\s*DHS?\b` -/
def reDhInvest : RE :=
  cat [reInvLabel, .wb, .lazystar dotRE, .grp 1 (plusRE dhCls), ws0,
       litI "DH", .opt (chI 'S'), .wb]

/-- `\b([\d\s.,]{3,})\s*DHS?\b` -/
def reDhFirst : RE :=
  cat [.wb, .grp 1 (cat [dhCls, dhCls, dhCls, .star dhCls]), ws0,
       litI "DH", .opt (chI 'S'), .wb]

/-! ### The area patterns (lines 407-449) -/

/-- `(?:\s*m\s*[²2])?` -/
def m2UnitOpt : RE :=
  .opt (cat [ws0, chI 'm', ws0, .cls (fun c => c == '²' || c == '2')])

/-- `Sup\s*[:\-]?\s*(\d+(?:[\s.,]\d+)?)(?:\s*m\s*[²2])?\s*(?:-|à)\s*(\d+(?:[\s.,]\d+)?)(?:\s*m\s*[²2])?\b` -/
def reSurfRange : RE :=
  cat [litI "Sup", ws0, .opt colonDash, ws0, .grp 1 num2, m2UnitOpt, ws0,
       dashOrA, ws0, .grp 2 num2, m2UnitOpt, .wb]

/-- `Sup\s*[:\-]?\s*(\d+(?:[\s.,]\d+)?)\s*m\s*[²2]\b` -/
def reSurfSingle : RE :=
  cat [litI "Sup", ws0, .opt colonDash, ws0, .grp 1 num2, ws0, chI 'm', ws0,
       .cls (fun c => c == '²' || c == '2'), .wb]

/-- `Sup\s*[:\-]?\s*(\d+(?:[.,]\d+)?)(?:\s*(?:-|à)\s*(\d+(?:[.,]\d+)?))?\s*Ha\b` -/
def reHa : RE :=
  cat [litI "Sup", ws0, .opt colonDash, ws0, .grp 1 num1,
       .opt (cat [ws0, dashOrA, ws0, .grp 2 num1]), ws0, litI "Ha", .wb]

/-! ### The ROI / payback patterns (lines 451-498) -/

/-- `TRI\s*(?:moyen)?\s*[:\-]?\s*(\d+(?:[.,]\d+)?)\s*(?:-|à)\s*(\d+(?:[.,]\d+)?)\s*%?` -/
def reTriRange : RE :=
  cat [litI "TRI", ws0, .opt (litI "moyen"), ws0, .opt colonDash, ws0,
       .grp 1 num1, ws0, dashOrA, ws0, .grp 2 num1, ws0, .opt (chI '%')]

/-- `TRI\s*(?:moyen)?\s*[:\-]?\s*(\d+(?:[.,]\d+)?)\s*%?` -/
def reTriSingle : RE :=
  cat [litI "TRI", ws0, .opt (litI "moyen"), ws0, .opt colonDash, ws0,
       .grp 1 num1, ws0, .opt (chI '%')]

/-- `PBP\s*[:\-]?\s*(\d+(?:[.,]\d+)?)\s*(?:-|à)?\s*(\d+(?:[.,]\d+)?)?\s*ans` -/
def rePbp : RE :=
  cat [litI "PBP", ws0, .opt colonDash, ws0, .grp 1 num1, ws0, .opt dashOrA,
       ws0, .opt (.grp 2 num1), ws0, litI "ans"]

/-- `\bROI\b\s*[:\-]?\s*(\d+(?:[.,]\d+)?)\s*(?:-|à)?\s*(\d+(?:[.,]\d+)?)?\s*ans` -/
def reRoiYears : RE :=
  cat [.wb, litI "ROI", .wb, ws0, .opt colonDash, ws0, .grp 1 num1, ws0,
       .opt dashOrA, ws0, .opt (.grp 2 num1), ws0, litI "ans"]

end CriBenimallal

namespace CriBenimallal

/-! ### Amount resolution (`extract_numeric_fields`, lines 341-405).

The searches (all on the `_norm`-normalised text) are gathered in
`amountMatches`; `resolveEstMad` is the subsequent control flow: the KDHS
block first sets `est_mad` from a KDHS range, else from a single KDHS value;
the MDH block then overwrites it whenever the MDH range pattern matched,
else fills it (only when still unset) from a labelled-or-bare single MDH
value; the DH block runs only when `est_mad` is still `None`, trying the
CA-adjacent pattern, then the labelled pattern, then the first standalone
DH amount. -/

structure AmountMatches where
  mInv : Option (String × String)
  mKdhs : Option (String × String)
  mKdhsSingle : Option String
  mInvSingleLab : Option String
  mInvSingleBare : Option String
  mDhCA : Option String
  mDhInvest : Option String
  mDhFirst : Option String
deriving DecidableEq

def amountMatches (t : String) : AmountMatches :=
  { mInv := searchG2 reMdhRange t
    mKdhs := searchG2 reKdhsRange t
    mKdhsSingle := searchG1 reKdhsSingle t
    mInvSingleLab := searchG1 reMdhSingleLab t
    mInvSingleBare := searchG1 reMdhSingleBare t
    mDhCA := searchG1 reDhCA t
    mDhInvest := searchG1 reDhInvest t
    mDhFirst := searchG1 reDhFirst t }

def resolveEstMad (ms : AmountMatches) : Option ℚ :=
  let est0 : Option ℚ :=
    match ms.mKdhs with
    | some (g1, g2) =>
      match parseNum g1, parseNum g2 with
      | some a, some b => some (((a + b) / 2) * 1000)
      | _, _ => none
    | none =>
      match ms.mKdhsSingle with
      | some g => (parseNum g).map (fun v => v * 1000)
      | none => none
  let est1 : Option ℚ :=
    match ms.mInv with
    | some (g1, g2) =>
      match parseNum g1, parseNum g2 with
      | some lo, some hi => some (((lo + hi) / 2) * 1000000)
      | _, _ => est0
    | none =>
      match ms.mInvSingleLab.orElse (fun _ => ms.mInvSingleBare) with
      | some g =>
        if est0 = none then
          match parseNum g with
          | some v => some (v * 1000000)
          | none => est0
        else est0
      | none => est0
  if est1 = none then
    match (ms.mDhCA.orElse (fun _ => ms.mDhInvest)).orElse (fun _ => ms.mDhFirst) with
    | some g => parseDh g
    | none => none
  else est1

/-! ### Area resolution (lines 407-449) -/

def resolveArea (t : String) : Option ℚ :=
  let area0 : Option ℚ :=
    match searchG2 reSurfRange t with
    | some (g1, g2) =>
      match parseNumSp g1, parseNumSp g2 with
      | some a, some b => some ((a + b) / 2)
      | _, _ => none
    | none =>
      match searchG1 reSurfSingle t with
      | some g => parseNumSp g
      | none => none
  if area0 = none then
    match searchG1o2 reHa t with
    | some (g1, some g2) =>
      match parseNum g1, parseNum g2 with
      | some h1, some h2 => some (((h1 + h2) / 2) * 10000)
      | _, _ => none
    | some (g1, none) => (parseNum g1).map (fun v => v * 10000)
    | none => none
  else area0

/-! ### TRI / PBP / ROI-years extraction (lines 451-498) -/

def rawRoi (t : String) : Option ℚ :=
  match searchG2 reTriRange t with
  | some (g1, g2) =>
    match parseNum g1, parseNum g2 with
    | some r1, some r2 => some ((r1 + r2) / 2)
    | _, _ => none
  | none =>
    match searchG1 reTriSingle t with
    | some g => parseNum g
    | none => none

def rawPbp (t : String) : Option ℚ :=
  match searchG1o2 rePbp t with
  | some (g1, some g2) =>
    match parseNum g1, parseNum g2 with
    | some p1, some p2 => some ((p1 + p2) / 2)
    | _, _ => none
  | some (g1, none) => parseNum g1
  | none => none

def rawRoiYears (t : String) : Option ℚ :=
  match searchG1o2 reRoiYears t with
  | some (g1, some g2) =>
    match parseNum g1, parseNum g2 with
    | some a, some b => some ((a + b) / 2)
    | _, _ => none
  | some (g1, none) => parseNum g1
  | none => none

/-! ### `extract_numeric_fields` assembled (numeric portion; the province
and industrial-zone lookups of lines 517-519 are separate extractors and
are not needed by the claims) -/

structure NumericFields where
  estimated_investment_mad : Option ℚ
  required_land_area_m2 : Option ℚ
  roi_estimated : Option ℚ
  payback_period_years : Option ℚ
deriving DecidableEq

def extract_numeric_fields (text : String) : NumericFields :=
  let t := normText text
  let est := resolveEstMad (amountMatches t)
  let area := resolveArea t
  let roi0 := rawRoi t
  let pb0 := rawPbp t
  let pb1 := if pb0 = none then rawRoiYears t else pb0
  let rp := fillRoiPayback roi0 pb1
  { estimated_investment_mad := est
    required_land_area_m2 := area
    roi_estimated := rp.1
    payback_period_years := rp.2 }

def estimated_investment_mad (text : String) : Option ℚ :=
  (extract_numeric_fields text).estimated_investment_mad

def required_land_area_m2 (text : String) : Option ℚ :=
  (extract_numeric_fields text).required_land_area_m2

/-! ### Sector extraction (`_strip_label_prefix`,
`extract_sector_from_layout`, lines 55-58 and 249-263) -/

/-- `^(?:Secteur\s*économique|Filières\s*de\s*production)\s*:\s*` -/
def reLabelMarker : RE :=
  cat [.alt (cat [litI "Secteur", ws0, litI "économique"])
            (cat [litI "Filières", ws0, litI "de", ws0, litI "production"]),
       ws0, chI ':', ws0]

/-- `_strip_label_prefix`: clean, remove the anchored label marker, strip. -/
def strip_label_marker (s : String) : String :=
  let t := clean_text s
  match matchAtRE reLabelMarker t.data none with
  | some (_, rest, _) => pyStrip (String.mk rest)
  | none => pyStrip t

/-- `Secteur\s*économique\s*:\s*(.+?)(?=Filières|ACTIVITÉ|AnalySe|$)`
(`IGNORECASE | DOTALL`), used on the left-column text. -/
def reSectorLeft : RE :=
  cat [litI "Secteur", ws0, litI "économique", ws0, chI ':', ws0,
       .grp 1 (.seq dotAllRE (.lazystar dotAllRE)),
       .look (.alt (litI "Filières") (.alt (litI "ACTIVITÉ") (.alt (litI "AnalySe") .eos)))]

/-- `Secteur\s*économique\s*:\s*(.+?)(?=Filières|ACTIVITÉ|AnalySe)`
(no `$` alternative), used on the full text. -/
def reSectorFull : RE :=
  cat [litI "Secteur", ws0, litI "économique", ws0, chI ':', ws0,
       .grp 1 (.seq dotAllRE (.lazystar dotAllRE)),
       .look (.alt (litI "Filières") (.alt (litI "ACTIVITÉ") (litI "AnalySe")))]

/-- `extract_sector_from_layout`: left column first, full text as fallback,
the fixed string `"CRI"` when neither matches. -/
def extract_sector_from_layout (left_text full_text : String) : String :=
  match reSearch reSectorLeft left_text with
  | some caps => strip_label_marker ((capStr caps 1).getD "")
  | none =>
    match reSearch reSectorFull full_text with
    | some caps => strip_label_marker ((capStr caps 1).getD "")
    | none => "CRI"

/-! ### Title extraction (`extract_project_title`, lines 227-247) -/

/-- Strategy 1: scan the lines; after a line containing the project-number
marker, accept the next line when it is longer than 3 characters and does
not contain `"Secteur"`; otherwise keep scanning. -/
def titleAfterMarker : List String → Option String
  | [] => none
  | l :: rest =>
    if (infixOfL "Projet N°".data l.data || infixOfL "Projet N".data l.data) then
      match rest with
      | next :: _ =>
        let candidate := pyStrip next
        if 3 < candidate.length && !(infixOfL "Secteur".data candidate.data) then
          some (dedupe_repeated_title candidate)
        else titleAfterMarker rest
      | [] => none
    else titleAfterMarker rest

/-- `Projet\s*N°\s*:\s*(?:PR\d+)?\s*\n(.+?)(?=\n|Secteur)`
(`IGNORECASE | DOTALL`). -/
def reTitle : RE :=
  cat [litI "Projet", ws0, chI 'N', chI '°', ws0, chI ':', ws0,
       .opt (cat [litI "PR", plusRE digitRE]), ws0, chI '\n',
       .grp 1 (.seq dotAllRE (.lazystar dotAllRE)),
       .look (.alt (chI '\n') (litI "Secteur"))]

def extract_project_title (text filename : String) : String :=
  match titleAfterMarker (splitLines text) with
  | some t => t
  | none =>
    match searchG1 reTitle text with
    | some g => dedupe_repeated_title g
    | none => replaceS (replaceS filename ".pdf" "") "-" " "

/-! ### Record assembly (`process_one_pdf`, lines 541-592; only the fields
the claims are about are materialised) -/

structure ExtractedFields where
  project_title : String
  sector : String
  sub_sector : Option String
  numeric : NumericFields
deriving DecidableEq

structure ProjectRecord where
  project_id : Nat
  project_reference : String
  project_title : String
  sector : String
  project_bank_category : String
  region : String
  estimated_investment_mad : Option ℚ
  min_investment_mad : Option ℚ
  investment_range : Option String
  payback_period_years : Option ℚ
  roi_estimated : Option ℚ
  required_land_area_m2 : Option ℚ
  source_type : String
deriving DecidableEq

def mkRecord (fields : ExtractedFields) (project_id : Nat) : ProjectRecord :=
  let est := fields.numeric.estimated_investment_mad
  { project_id := project_id
    project_reference := projectReference fields.project_title project_id
    project_title := fields.project_title
    sector := fields.sector
    project_bank_category := fields.sector
    region := regionBK
    estimated_investment_mad := est
    min_investment_mad := min_investment_mad est
    investment_range := investment_range_label est
    payback_period_years := fields.numeric.payback_period_years
    roi_estimated := fields.numeric.roi_estimated
    required_land_area_m2 := fields.numeric.required_land_area_m2
    source_type := SOURCE_TYPE }

/-! ### The first-success priority list stated by the (amended) claim on
amount resolution, written from the claim's words for comparison with
`resolveEstMad` -/

def mdhRangeValue (ms : AmountMatches) : Option ℚ :=
  ms.mInv.bind (fun p => (parseNum p.1).bind (fun a =>
    (parseNum p.2).map (fun b => ((a + b) / 2) * 1000000)))

def kdhsRangeValue (ms : AmountMatches) : Option ℚ :=
  ms.mKdhs.bind (fun p => (parseNum p.1).bind (fun a =>
    (parseNum p.2).map (fun b => ((a + b) / 2) * 1000)))

def kdhsSingleValue (ms : AmountMatches) : Option ℚ :=
  (ms.mKdhsSingle.bind parseNum).map (fun v => v * 1000)

def mdhSingleValue (ms : AmountMatches) : Option ℚ :=
  ((ms.mInvSingleLab.orElse (fun _ => ms.mInvSingleBare)).bind parseNum).map
    (fun v => v * 1000000)

def dhValue (ms : AmountMatches) : Option ℚ :=
  ((ms.mDhCA.orElse (fun _ => ms.mDhInvest)).orElse (fun _ => ms.mDhFirst)).bind parseDh

def amountPriorityChain (ms : AmountMatches) : Option ℚ :=
  (mdhRangeValue ms).orElse (fun _ => (kdhsRangeValue ms).orElse (fun _ =>
    (kdhsSingleValue ms).orElse (fun _ => (mdhSingleValue ms).orElse (fun _ =>
      dhValue ms))))

/-- All captures present in an `AmountMatches` convert by `float()`. -/
def capPairParses : Option (String × String) → Bool
  | none => true
  | some (a, b) => (parseNum a).isSome && (parseNum b).isSome

def capParsesNum : Option String → Bool
  | none => true
  | some a => (parseNum a).isSome

def capParsesDh : Option String → Bool
  | none => true
  | some a => (parseDh a).isSome

def amountCapsParse (ms : AmountMatches) : Bool :=
  capPairParses ms.mInv && capPairParses ms.mKdhs && capParsesNum ms.mKdhsSingle &&
  capParsesNum ms.mInvSingleLab && capParsesNum ms.mInvSingleBare &&
  capParsesDh ms.mDhCA && capParsesDh ms.mDhInvest && capParsesDh ms.mDhFirst

end CriBenimallal

/-! ### Helper lemmas: evaluation of `pyFloat` on digit-only captures, and
the rounding error bound of `pyRound2` -/

theorem pyFloat_digitsOnly (l : List Char) (h1 : l.all Char.isDigit = true)
    (h2 : l.isEmpty = false) : pyFloat l = some (digitsVal l : ℚ) := by
  have hall : ∀ c ∈ l, c.isDigit = true := by
    intro c hc
    exact List.all_eq_true.mp h1 c hc
  have hnd : ('.' : Char) ∉ l := by
    intro hmem
    have := hall '.' hmem
    simp at this
  have ht : l.takeWhile (fun c => c != '.') = l := by
    rw [List.takeWhile_eq_self_iff]
    intro x hx
    have hd := hall x hx
    have : x ≠ '.' := by
      intro he
      subst he
      simp at hd
    simpa using this
  have hdrop : l.dropWhile (fun c => c != '.') = [] := by
    rw [List.dropWhile_eq_nil_iff]
    intro x hx
    have hd := hall x hx
    have : x ≠ '.' := by
      intro he
      subst he
      simp at hd
    simpa using this
  have hcond : ((!l.isEmpty) && l.all (fun c => c.isDigit || c == '.')
      && decide (l.count '.' ≤ 1) && l.any (fun c => c.isDigit)) = true := by
    have hcnt : l.count '.' = 0 := List.count_eq_zero.mpr hnd
    have hany : l.any (fun c => c.isDigit) = true := by
      cases l with
      | nil => simp at h2
      | cons c rest =>
        have := hall c (by simp)
        simp [List.any_cons, this]
    have hall2 : l.all (fun c => c.isDigit || c == '.') = true := by
      rw [List.all_eq_true]
      intro c hc
      simp [hall c hc]
    simp [h2, hall2, hcnt, hany]
  rw [pyFloat, if_pos hcond, ht, hdrop]
  simp [digitsVal]

theorem parseNum_digitsOnly (s : String) (n : ℕ)
    (h1 : (replaceS s "," ".").data.all Char.isDigit = true)
    (h2 : (replaceS s "," ".").data.isEmpty = false)
    (h3 : digitsVal (replaceS s "," ".").data = n) :
    parseNum s = some (n : ℚ) := by
  rw [parseNum, pyFloat_digitsOnly _ h1 h2, h3]

theorem parseNumSp_digitsOnly (s : String) (n : ℕ)
    (h1 : (replaceS (replaceS s " " "") "," ".").data.all Char.isDigit = true)
    (h2 : (replaceS (replaceS s " " "") "," ".").data.isEmpty = false)
    (h3 : digitsVal (replaceS (replaceS s " " "") "," ".").data = n) :
    parseNumSp s = some (n : ℚ) := by
  rw [parseNumSp, pyFloat_digitsOnly _ h1 h2, h3]

theorem abs_roundHalfEven_sub (x : ℚ) : |(roundHalfEven x : ℚ) - x| ≤ 1/2 := by
  have hfl : (⌊x⌋ : ℚ) ≤ x := Int.floor_le x
  have hfu : x < (⌊x⌋ : ℚ) + 1 := Int.lt_floor_add_one x
  rw [roundHalfEven]
  rcases lt_trichotomy (x - (⌊x⌋ : ℚ)) (1/2) with hlt | heq | hgt
  · rw [if_pos hlt, abs_le]
    constructor <;> linarith
  · rw [if_neg (by linarith), if_neg (by linarith)]
    by_cases hpar : ⌊x⌋ % 2 = 0
    · rw [if_pos hpar, abs_le]
      constructor <;> linarith
    · rw [if_neg hpar]
      push_cast
      rw [abs_le]
      constructor <;> linarith
  · rw [if_neg (by linarith), if_pos hgt]
    push_cast
    rw [abs_le]
    constructor <;> linarith

theorem abs_pyRound2_sub (x : ℚ) : |pyRound2 x - x| ≤ 1/200 := by
  have h := abs_roundHalfEven_sub (x * 100)
  rw [pyRound2]
  have : (roundHalfEven (x * 100) : ℚ) / 100 - x = ((roundHalfEven (x * 100) : ℚ) - x * 100) / 100 := by
    ring
  rw [this, abs_div]
  rw [show |(100 : ℚ)| = 100 by norm_num]
  linarith

namespace CriBenimallal

/-! ### Helper lemmas: the amount and area resolution chains evaluated
branch by branch -/

theorem est_mad_eq_resolve (text : String) :
    estimated_investment_mad text = resolveEstMad (amountMatches (normText text)) := by
  simp only [estimated_investment_mad, extract_numeric_fields]

theorem area_eq_resolve (text : String) :
    required_land_area_m2 text = resolveArea (normText text) := by
  simp only [required_land_area_m2, extract_numeric_fields]

theorem resolveEstMad_mdh_range (ms : AmountMatches) (g1 g2 : String) (a b : ℚ)
    (h : ms.mInv = some (g1, g2)) (h1 : parseNum g1 = some a) (h2 : parseNum g2 = some b) :
    resolveEstMad ms = some (((a + b) / 2) * 1000000) := by
  simp [resolveEstMad, h, h1, h2]

theorem resolveEstMad_kdhs_range (ms : AmountMatches) (g1 g2 : String) (a b : ℚ)
    (hinv : ms.mInv = none) (h : ms.mKdhs = some (g1, g2))
    (h1 : parseNum g1 = some a) (h2 : parseNum g2 = some b) :
    resolveEstMad ms = some (((a + b) / 2) * 1000) := by
  cases horElse : ms.mInvSingleLab.orElse (fun _ => ms.mInvSingleBare) with
  | none => simp [resolveEstMad, hinv, h, h1, h2, horElse]
  | some g => simp [resolveEstMad, hinv, h, h1, h2, horElse]

theorem resolveEstMad_kdhs_single (ms : AmountMatches) (g : String) (a : ℚ)
    (hinv : ms.mInv = none) (hk : ms.mKdhs = none) (h : ms.mKdhsSingle = some g)
    (h1 : parseNum g = some a) :
    resolveEstMad ms = some (a * 1000) := by
  cases horElse : ms.mInvSingleLab.orElse (fun _ => ms.mInvSingleBare) with
  | none => simp [resolveEstMad, hinv, hk, h, h1, horElse]
  | some g' => simp [resolveEstMad, hinv, hk, h, h1, horElse]

theorem resolveEstMad_mdh_single (ms : AmountMatches) (g : String) (a : ℚ)
    (hinv : ms.mInv = none) (hk : ms.mKdhs = none) (hks : ms.mKdhsSingle = none)
    (h : ms.mInvSingleLab.orElse (fun _ => ms.mInvSingleBare) = some g)
    (h1 : parseNum g = some a) :
    resolveEstMad ms = some (a * 1000000) := by
  simp [resolveEstMad, hinv, hk, hks, h, h1]

theorem resolveEstMad_dh (ms : AmountMatches) (g : String)
    (hinv : ms.mInv = none) (hk : ms.mKdhs = none) (hks : ms.mKdhsSingle = none)
    (hs : ms.mInvSingleLab.orElse (fun _ => ms.mInvSingleBare) = none)
    (h : (ms.mDhCA.orElse (fun _ => ms.mDhInvest)).orElse (fun _ => ms.mDhFirst) = some g) :
    resolveEstMad ms = parseDh g := by
  simp [resolveEstMad, hinv, hk, hks, hs, h]

theorem resolveEstMad_none (ms : AmountMatches)
    (hinv : ms.mInv = none) (hk : ms.mKdhs = none) (hks : ms.mKdhsSingle = none)
    (hs : ms.mInvSingleLab.orElse (fun _ => ms.mInvSingleBare) = none)
    (h : (ms.mDhCA.orElse (fun _ => ms.mDhInvest)).orElse (fun _ => ms.mDhFirst) = none) :
    resolveEstMad ms = none := by
  simp [resolveEstMad, hinv, hk, hks, hs, h]

theorem resolveArea_range (t : String) (g1 g2 : String) (a b : ℚ)
    (h : searchG2 reSurfRange t = some (g1, g2))
    (h1 : parseNumSp g1 = some a) (h2 : parseNumSp g2 = some b) :
    resolveArea t = some ((a + b) / 2) := by
  simp [resolveArea, h, h1, h2]

theorem resolveArea_single (t : String) (g : String) (a : ℚ)
    (h : searchG2 reSurfRange t = none) (hs : searchG1 reSurfSingle t = some g)
    (h1 : parseNumSp g = some a) :
    resolveArea t = some a := by
  simp [resolveArea, h, hs, h1]

theorem resolveArea_ha_single (t : String) (g : String) (a : ℚ)
    (h : searchG2 reSurfRange t = none) (hs : searchG1 reSurfSingle t = none)
    (hha : searchG1o2 reHa t = some (g, none)) (h1 : parseNum g = some a) :
    resolveArea t = some (a * 10000) := by
  simp [resolveArea, h, hs, hha, h1]

theorem resolveArea_ha_range (t : String) (g1 g2 : String) (a b : ℚ)
    (h : searchG2 reSurfRange t = none) (hs : searchG1 reSurfSingle t = none)
    (hha : searchG1o2 reHa t = some (g1, some g2))
    (h1 : parseNum g1 = some a) (h2 : parseNum g2 = some b) :
    resolveArea t = some (((a + b) / 2) * 10000) := by
  simp [resolveArea, h, hs, hha, h1, h2]

end CriBenimallal

theorem roundHalfEven_intCast (n : ℤ) : roundHalfEven ((n : ℚ)) = n := by
  simp [roundHalfEven, Int.floor_intCast]

theorem pyRound2_eq_of_mul_eq_int (x : ℚ) (n : ℤ) (h : x * 100 = (n : ℚ)) :
    pyRound2 x = (n : ℚ) / 100 := by
  rw [pyRound2, h, roundHalfEven_intCast]

namespace CriBenimallal

/-- C1: for every amount string on which the million-dirham (MDH/MDHS) range
pattern matches, the resolved `estimated_investment_mad` is the arithmetic
mean of the two captured endpoints times 1 000 000; in particular a text
containing `"20 - 30 MDH"` resolves to 25 000 000, and the record fields
built from that value are `min_investment_mad = 20 000 000` and
`investment_range = "High"`. -/
theorem c1_mdh_range_mean :
    (∀ t g1 g2 (a b : ℚ),
      (amountMatches (normText t)).mInv = some (g1, g2) →
      parseNum g1 = some a → parseNum g2 = some b →
      estimated_investment_mad t = some (((a + b) / 2) * 1000000)) ∧
    estimated_investment_mad "20 - 30 MDH" = some 25000000 ∧
    min_investment_mad (some 25000000) = some 20000000 ∧
    investment_range_label (some 25000000) = some "High" := by
  have main : ∀ t g1 g2 (a b : ℚ),
      (amountMatches (normText t)).mInv = some (g1, g2) →
      parseNum g1 = some a → parseNum g2 = some b →
      estimated_investment_mad t = some (((a + b) / 2) * 1000000) := by
    intro t g1 g2 a b h h1 h2
    rw [est_mad_eq_resolve, resolveEstMad_mdh_range _ g1 g2 a b h h1 h2]
  have p20 : parseNum "20" = some (20 : ℚ) := by
    have h := parseNum_digitsOnly "20" 20 (by decide) (by decide) (by decide)
    simpa using h
  have p30 : parseNum "30" = some (30 : ℚ) := by
    have h := parseNum_digitsOnly "30" 30 (by decide) (by decide) (by decide)
    simpa using h
  refine ⟨main, ?_, ?_, ?_⟩
  · rw [main "20 - 30 MDH" "20" "30" 20 30 (by decide) p20 p30]
    norm_num
  · show some (pyRound2 ((25000000 : ℚ) * (8/10))) = some 20000000
    rw [pyRound2_eq_of_mul_eq_int _ 2000000000 (by norm_num)]
    norm_num
  · show (if (25000000 : ℚ) < INV_LOW_MAX then some "Low"
      else if (25000000 : ℚ) ≤ INV_MEDIUM_MAX then some "Medium"
      else some "High") = some "High"
    rw [if_neg (by rw [INV_LOW_MAX]; norm_num), if_neg (by rw [INV_MEDIUM_MAX]; norm_num)]

/-- Witness for C1 at the concrete text `"20 - 30 MDH"`. -/
theorem c1_mdh_range_mean_witness :
    (amountMatches (normText "20 - 30 MDH")).mInv = some ("20", "30") ∧
    estimated_investment_mad "20 - 30 MDH" = some (((20 + 30) / 2) * 1000000) := by
  have p20 : parseNum "20" = some (20 : ℚ) := by
    have h := parseNum_digitsOnly "20" 20 (by decide) (by decide) (by decide)
    simpa using h
  have p30 : parseNum "30" = some (30 : ℚ) := by
    have h := parseNum_digitsOnly "30" 30 (by decide) (by decide) (by decide)
    simpa using h
  exact ⟨by decide, c1_mdh_range_mean.1 "20 - 30 MDH" "20" "30" 20 30 (by decide) p20 p30⟩

/-- C4 counterexample: on a text containing both a KDHS range and an MDH
range, the MDH-range value (25 000 000) wins, not the KDHS-derived value
(25 000), because the MDH-range branch overwrites `est_mad`
unconditionally. -/
theorem c4_counterexample :
    estimated_investment_mad "15 - 35 KDHS 20 - 30 MDH" = some 25000000 ∧
    (amountMatches (normText "15 - 35 KDHS 20 - 30 MDH")).mKdhs = some ("15", "35") ∧
    ((25000000 : ℚ) ≠ ((15 + 35) / 2) * 1000) := by
  have p20 : parseNum "20" = some (20 : ℚ) := by
    have h := parseNum_digitsOnly "20" 20 (by decide) (by decide) (by decide)
    simpa using h
  have p30 : parseNum "30" = some (30 : ℚ) := by
    have h := parseNum_digitsOnly "30" 30 (by decide) (by decide) (by decide)
    simpa using h
  refine ⟨?_, by decide, by norm_num⟩
  rw [est_mad_eq_resolve,
      resolveEstMad_mdh_range _ "20" "30" 20 30 (by decide) p20 p30]
  norm_num

/-- C5 (amended): any match of the `Sup`-anchored range pattern — whose two
unit tokens are optional, so hectare ranges match it as well — resolves to
the plain arithmetic mean of the endpoints with no unit scaling; a single
`m²` value is taken as is; the ×10 000 hectare conversion is reachable only
for matches of the `Ha` pattern that the range pattern missed.  The scenario
`"Sup : 500 - 700 m²"` resolves to 600. -/
theorem c5_area_amended :
    (∀ t g1 g2 (a b : ℚ), searchG2 reSurfRange (normText t) = some (g1, g2) →
      parseNumSp g1 = some a → parseNumSp g2 = some b →
      required_land_area_m2 t = some ((a + b) / 2)) ∧
    required_land_area_m2 "Sup : 500 - 700 m²" = some 600 ∧
    (∀ t g (a : ℚ), searchG2 reSurfRange (normText t) = none →
      searchG1 reSurfSingle (normText t) = some g → parseNumSp g = some a →
      required_land_area_m2 t = some a) ∧
    (∀ t g (a : ℚ), searchG2 reSurfRange (normText t) = none →
      searchG1 reSurfSingle (normText t) = none →
      searchG1o2 reHa (normText t) = some (g, none) → parseNum g = some a →
      required_land_area_m2 t = some (a * 10000)) := by
  have hrange : ∀ t g1 g2 (a b : ℚ), searchG2 reSurfRange (normText t) = some (g1, g2) →
      parseNumSp g1 = some a → parseNumSp g2 = some b →
      required_land_area_m2 t = some ((a + b) / 2) := by
    intro t g1 g2 a b h h1 h2
    rw [area_eq_resolve, resolveArea_range _ g1 g2 a b h h1 h2]
  refine ⟨hrange, ?_, ?_, ?_⟩
  · have p500 : parseNumSp "500" = some (500 : ℚ) := by
      have h := parseNumSp_digitsOnly "500" 500 (by decide) (by decide) (by decide)
      simpa using h
    have p700 : parseNumSp "700" = some (700 : ℚ) := by
      have h := parseNumSp_digitsOnly "700" 700 (by decide) (by decide) (by decide)
      simpa using h
    rw [hrange "Sup : 500 - 700 m²" "500" "700" 500 700 (by decide) p500 p700]
    norm_num
  · intro t g a h hs h1
    rw [area_eq_resolve, resolveArea_single _ g a h hs h1]
  · intro t g a h hs hha h1
    rw [area_eq_resolve, resolveArea_ha_single _ g a h hs hha h1]

/-- Witness for C5 at the concrete text `"Sup : 500 - 700 m²"`. -/
theorem c5_area_amended_witness :
    searchG2 reSurfRange (normText "Sup : 500 - 700 m²") = some ("500", "700") ∧
    required_land_area_m2 "Sup : 500 - 700 m²" = some (((500 : ℚ) + 700) / 2) := by
  have p500 : parseNumSp "500" = some (500 : ℚ) := by
    have h := parseNumSp_digitsOnly "500" 500 (by decide) (by decide) (by decide)
    simpa using h
  have p700 : parseNumSp "700" = some (700 : ℚ) := by
    have h := parseNumSp_digitsOnly "700" 700 (by decide) (by decide) (by decide)
    simpa using h
  exact ⟨by decide,
    c5_area_amended.1 "Sup : 500 - 700 m²" "500" "700" 500 700 (by decide) p500 p700⟩

/-- C5 counterexample: a hectare range `"Sup : 2 - 4 Ha"` is captured by the
unit-optional range pattern and resolves to 3 — neither 2 × 10 000 nor the
hectare-scaled mean 30 000. -/
theorem c5_counterexample :
    required_land_area_m2 "Sup : 2 - 4 Ha" = some 3 ∧
    ((3 : ℚ) ≠ ((2 + 4) / 2) * 10000) := by
  have p2 : parseNumSp "2" = some (2 : ℚ) := by
    have h := parseNumSp_digitsOnly "2" 2 (by decide) (by decide) (by decide)
    simpa using h
  have p4 : parseNumSp "4" = some (4 : ℚ) := by
    have h := parseNumSp_digitsOnly "4" 4 (by decide) (by decide) (by decide)
    simpa using h
  refine ⟨?_, by norm_num⟩
  rw [area_eq_resolve, resolveArea_range _ "2" "4" 2 4 (by decide) p2 p4]
  norm_num

/-- C7: the four-word duplicated title block `"CENTRE D’APPEL CENTRE D’APPEL"`
is returned unchanged — the dedupe guard requires at least six words — even
though a six-word duplicate does collapse; evaluated both on the dedupe
helper and through the title extractor. -/
theorem c7_title_dedupe_eval :
    dedupe_repeated_title "CENTRE D’APPEL CENTRE D’APPEL" = "CENTRE D’APPEL CENTRE D’APPEL" ∧
    "CENTRE D’APPEL CENTRE D’APPEL" ≠ "CENTRE D’APPEL" ∧
    extract_project_title "Projet N° : PR100\nCENTRE D’APPEL CENTRE D’APPEL\nSecteur économique : X" "f.pdf"
      = "CENTRE D’APPEL CENTRE D’APPEL" ∧
    dedupe_repeated_title "CENTRE D’APPEL A CENTRE D’APPEL A" = "CENTRE D’APPEL A" := by
  exact ⟨by decide, by decide, by decide, by decide⟩

end CriBenimallal

namespace CriBenimallal

/-- C2: `investment_range_label` (identical in both scripts, and the value
stored in the assembled record) is `"Low"` iff the amount is below
5 000 000, `"Medium"` iff it lies in [5 000 000, 20 000 000], `"High"` iff
it exceeds 20 000 000, and absent iff the amount is absent. -/
theorem c2_investment_range_iff :
    (∀ x : Option ℚ,
      ((investment_range_label x = some "Low") ↔ ∃ v, x = some v ∧ v < 5000000) ∧
      ((investment_range_label x = some "Medium") ↔
        ∃ v, x = some v ∧ 5000000 ≤ v ∧ v ≤ 20000000) ∧
      ((investment_range_label x = some "High") ↔ ∃ v, x = some v ∧ 20000000 < v) ∧
      ((investment_range_label x = none) ↔ x = none)) ∧
    (∀ x, ExtractProjects.investment_range_label x = investment_range_label x) ∧
    (∀ f pid, (mkRecord f pid).investment_range =
      investment_range_label f.numeric.estimated_investment_mad) := by
  refine ⟨?_, ?_, fun f pid => rfl⟩
  · intro x
    rcases x with _ | v
    · simp [investment_range_label]
    · simp only [investment_range_label, INV_LOW_MAX, INV_MEDIUM_MAX]
      by_cases h1 : v < 5000000
      · have h2 : ¬(5000000 : ℚ) ≤ v := not_le.mpr h1
        have h3 : ¬(20000000 : ℚ) < v := by linarith
        rw [if_pos h1]
        exact ⟨by simp [h1], by simp [h2], by simp [h3], by simp⟩
      · have h1' := not_lt.mp h1
        by_cases h4 : v ≤ 20000000
        · rw [if_neg h1, if_pos h4]
          exact ⟨by simp [h1], by simp [h1', h4], by simp [not_lt.mpr h4], by simp⟩
        · have h4' := not_le.mp h4
          rw [if_neg h1, if_neg h4]
          exact ⟨by simp [h1], by simp [h4], by simp [h4'], by simp⟩
  · intro x
    rcases x with _ | v <;> rfl

/-- C3 counterexample: in `extract_projects.py`, `roi_estimated_only`
returns the fixed assumption 100/6 when no payback was extracted, so with
neither field extracted `roi_estimated` is not absent, contradicting the
claim's "when neither is extracted, both stay absent". -/
theorem c3_counterexample :
    ExtractProjects.roi_estimated_only none = some (100 / 6) ∧
    ExtractProjects.roi_estimated_only none ≠ none := by
  refine ⟨rfl, ?_⟩
  rw [ExtractProjects.roi_estimated_only]
  simp

/-- C3 (amended): in `cri_benimallal.py`, when exactly one of the pair is
extracted the other is cross-filled with the reciprocal rounded to two
decimals — the rate from a payback that is strictly positive (with no check
on the resulting rate), the payback from a rate lying in (0, 100]; when
neither is extracted both stay absent, and when both are extracted neither
changes.  Applying the derivation twice (ROI → payback → ROI) returns the
original rate within 0.51 for rates in (0, 100].  In `extract_projects.py`,
`roi_estimated` is instead always set: 100/payback when a positive payback
was extracted, the fixed 100/6 otherwise — never absent. -/
theorem c3_fill_amended :
    (∀ r p : ℚ, fillRoiPayback (some r) (some p) = (some r, some p)) ∧
    fillRoiPayback none none = (none, none) ∧
    (∀ p : ℚ, fillRoiPayback none (some p) =
      ((if 0 < p then some (pyRound2 (100 / p)) else none), some p)) ∧
    (∀ r : ℚ, fillRoiPayback (some r) none =
      (some r, if 0 < r ∧ r ≤ 100 then some (pyRound2 (100 / r)) else none)) ∧
    (∀ r : ℚ, 0 < r → r ≤ 100 →
      ∃ pb roi', (fillRoiPayback (some r) none).2 = some pb ∧ 0 < pb ∧
        (fillRoiPayback none (some pb)).1 = some roi' ∧ |roi' - r| ≤ 51/100) ∧
    (∀ p : ℚ, ExtractProjects.roi_estimated_only (some p) =
      if 0 < p then some (100 / p) else some (100 / 6)) ∧
    ExtractProjects.roi_estimated_only none = some (100 / 6) := by
  refine ⟨fun r p => rfl, rfl, fun p => rfl, fun r => rfl, ?_, fun p => rfl, rfl⟩
  intro r h0 h1
  have hx1 : (1 : ℚ) ≤ 100 / r := (le_div_iff₀ h0).mpr (by linarith)
  have hqx : |pyRound2 (100 / r) - 100 / r| ≤ 1/200 := abs_pyRound2_sub _
  have hq0 : (199/200 : ℚ) ≤ pyRound2 (100 / r) := by
    have h := abs_le.mp hqx
    linarith [h.1]
  have hqpos : 0 < pyRound2 (100 / r) := by linarith
  refine ⟨pyRound2 (100 / r), pyRound2 (100 / pyRound2 (100 / r)), ?_, hqpos, ?_, ?_⟩
  · simp [fillRoiPayback, h0, h1]
  · simp [fillRoiPayback, hqpos]
  · have habs2 : |pyRound2 (100 / pyRound2 (100 / r)) - 100 / pyRound2 (100 / r)| ≤ 1/200 :=
      abs_pyRound2_sub _
    have hrne : r ≠ 0 := ne_of_gt h0
    have hqne : pyRound2 (100 / r) ≠ 0 := ne_of_gt hqpos
    have hxne : 100 / r ≠ 0 := by positivity
    have heq2 : 100 / pyRound2 (100 / r) - r =
        100 * ((100 / r) - pyRound2 (100 / r)) / (pyRound2 (100 / r) * (100 / r)) := by
      field_simp
      ring
    have hprod : (199/200 : ℚ) ≤ pyRound2 (100 / r) * (100 / r) := by
      nlinarith
    have habs1 : |100 / pyRound2 (100 / r) - r| ≤ 100/199 := by
      rw [heq2, abs_div, abs_mul]
      rw [abs_of_nonneg (show (0:ℚ) ≤ (100:ℚ) by norm_num),
          abs_of_pos (show (0:ℚ) < pyRound2 (100 / r) * (100 / r) by nlinarith)]
      have hnum : 100 * |100 / r - pyRound2 (100 / r)| ≤ 1/2 := by
        rw [abs_sub_comm] at hqx
        linarith [hqx]
      calc 100 * |100 / r - pyRound2 (100 / r)| / (pyRound2 (100 / r) * (100 / r))
          ≤ (1/2) / (199/200) := by
            apply div_le_div₀ (by norm_num) hnum (by norm_num) hprod
        _ ≤ 100/199 := by norm_num
    calc |pyRound2 (100 / pyRound2 (100 / r)) - r|
        ≤ |pyRound2 (100 / pyRound2 (100 / r)) - 100 / pyRound2 (100 / r)| +
          |100 / pyRound2 (100 / r) - r| := abs_sub_le _ _ _
      _ ≤ 1/200 + 100/199 := by linarith
      _ ≤ 51/100 := by norm_num

/-- Witness for C3's amended round-trip law at the rate 40 (payback 2.5). -/
theorem c3_fill_amended_witness :
    0 < (40 : ℚ) ∧ (40 : ℚ) ≤ 100 ∧
    ∃ pb roi', (fillRoiPayback (some (40 : ℚ)) none).2 = some pb ∧ 0 < pb ∧
      (fillRoiPayback none (some pb)).1 = some roi' ∧ |roi' - 40| ≤ 51/100 := by
  exact ⟨by norm_num, by norm_num,
    c3_fill_amended.2.2.2.2.1 40 (by norm_num) (by norm_num)⟩

end CriBenimallal

namespace CriBenimallal

/-- C4 (amended): the amount resolution implements first-success priority
`MDH range → KDHS range → KDHS single → MDH single (labelled preferred, with
optional "Mn") → DH next to CA → labelled DH → first standalone DH`; in
particular the MDH-range branch overwrites any KDHS-derived value, so when
both a KDHS range and an MDH range match, the MDH value is the result. -/
theorem c4_priority_amended :
    ∀ ms : AmountMatches, amountCapsParse ms = true →
      resolveEstMad ms = amountPriorityChain ms := by
  intro ms hp
  simp only [amountCapsParse, Bool.and_eq_true] at hp
  obtain ⟨⟨⟨⟨⟨⟨⟨hInv, hKdhs⟩, hKS⟩, hLab⟩, hBare⟩, hCA⟩, hDI⟩, hDF⟩ := hp
  rcases hmi : ms.mInv with _ | ⟨g1, g2⟩
  · rcases hk : ms.mKdhs with _ | ⟨k1, k2⟩
    · rcases hks : ms.mKdhsSingle with _ | g
      · rcases hlab : ms.mInvSingleLab with _ | g
        · rcases hbare : ms.mInvSingleBare with _ | g
          · have horElse : ms.mInvSingleLab.orElse (fun _ => ms.mInvSingleBare) = none := by
              rw [hlab, hbare]; rfl
            rcases hca : ms.mDhCA with _ | g
            · rcases hdi : ms.mDhInvest with _ | g
              · rcases hdf : ms.mDhFirst with _ | g
                · have hdh : (ms.mDhCA.orElse (fun _ => ms.mDhInvest)).orElse
                      (fun _ => ms.mDhFirst) = none := by rw [hca, hdi, hdf]; rfl
                  rw [resolveEstMad_none ms hmi hk hks horElse hdh]
                  simp [amountPriorityChain, mdhRangeValue, kdhsRangeValue,
                    kdhsSingleValue, mdhSingleValue, dhValue, hmi, hk, hks, hlab,
                    hbare, hca, hdi, hdf]
                · have hdh : (ms.mDhCA.orElse (fun _ => ms.mDhInvest)).orElse
                      (fun _ => ms.mDhFirst) = some g := by rw [hca, hdi, hdf]; rfl
                  rw [resolveEstMad_dh ms g hmi hk hks horElse hdh]
                  simp [amountPriorityChain, mdhRangeValue, kdhsRangeValue,
                    kdhsSingleValue, mdhSingleValue, dhValue, hmi, hk, hks, hlab,
                    hbare, hca, hdi, hdf]
              · have hdh : (ms.mDhCA.orElse (fun _ => ms.mDhInvest)).orElse
                    (fun _ => ms.mDhFirst) = some g := by rw [hca, hdi]; rfl
                rw [resolveEstMad_dh ms g hmi hk hks horElse hdh]
                simp [amountPriorityChain, mdhRangeValue, kdhsRangeValue,
                  kdhsSingleValue, mdhSingleValue, dhValue, hmi, hk, hks, hlab,
                  hbare, hca, hdi]
            · have hdh : (ms.mDhCA.orElse (fun _ => ms.mDhInvest)).orElse
                  (fun _ => ms.mDhFirst) = some g := by rw [hca]; rfl
              rw [resolveEstMad_dh ms g hmi hk hks horElse hdh]
              simp [amountPriorityChain, mdhRangeValue, kdhsRangeValue,
                kdhsSingleValue, mdhSingleValue, dhValue, hmi, hk, hks, hlab,
                hbare, hca]
          · have horElse : ms.mInvSingleLab.orElse (fun _ => ms.mInvSingleBare) = some g := by
              rw [hlab, hbare]; rfl
            rw [hbare] at hBare
            simp only [capParsesNum] at hBare
            obtain ⟨a, ha⟩ := Option.isSome_iff_exists.mp hBare
            rw [resolveEstMad_mdh_single ms g a hmi hk hks horElse ha]
            simp [amountPriorityChain, mdhRangeValue, kdhsRangeValue,
              kdhsSingleValue, mdhSingleValue, dhValue, hmi, hk, hks, hlab,
              hbare, ha]
        · have horElse : ms.mInvSingleLab.orElse (fun _ => ms.mInvSingleBare) = some g := by
            rw [hlab]; rfl
          rw [hlab] at hLab
          simp only [capParsesNum] at hLab
          obtain ⟨a, ha⟩ := Option.isSome_iff_exists.mp hLab
          rw [resolveEstMad_mdh_single ms g a hmi hk hks horElse ha]
          simp [amountPriorityChain, mdhRangeValue, kdhsRangeValue,
            kdhsSingleValue, mdhSingleValue, dhValue, hmi, hk, hks, hlab, ha]
      · rw [hks] at hKS
        simp only [capParsesNum] at hKS
        obtain ⟨a, ha⟩ := Option.isSome_iff_exists.mp hKS
        rw [resolveEstMad_kdhs_single ms g a hmi hk hks ha]
        simp [amountPriorityChain, mdhRangeValue, kdhsRangeValue,
          kdhsSingleValue, mdhSingleValue, dhValue, hmi, hk, hks, ha]
    · rw [hk] at hKdhs
      simp only [capPairParses, Bool.and_eq_true] at hKdhs
      obtain ⟨a, ha⟩ := Option.isSome_iff_exists.mp hKdhs.1
      obtain ⟨b, hb⟩ := Option.isSome_iff_exists.mp hKdhs.2
      rw [resolveEstMad_kdhs_range ms k1 k2 a b hmi hk ha hb]
      simp [amountPriorityChain, mdhRangeValue, kdhsRangeValue, hmi, hk, ha, hb]
  · rw [hmi] at hInv
    simp only [capPairParses, Bool.and_eq_true] at hInv
    obtain ⟨a, ha⟩ := Option.isSome_iff_exists.mp hInv.1
    obtain ⟨b, hb⟩ := Option.isSome_iff_exists.mp hInv.2
    rw [resolveEstMad_mdh_range ms g1 g2 a b hmi ha hb]
    simp [amountPriorityChain, mdhRangeValue, hmi, ha, hb]

/-- Witness for C4's amended priority law at a concrete match state holding
only a KDHS range. -/
theorem c4_priority_amended_witness :
    amountCapsParse ⟨none, some ("15", "35"), none, none, none, none, none, none⟩ = true ∧
    resolveEstMad ⟨none, some ("15", "35"), none, none, none, none, none, none⟩ =
      amountPriorityChain ⟨none, some ("15", "35"), none, none, none, none, none, none⟩ := by
  refine ⟨by decide, c4_priority_amended _ (by decide)⟩

end CriBenimallal

namespace CriBenimallal

/-! ### Helper lemmas for identifier allocation and the merge engine -/

theorem assignIds_length (n : ℤ) (fs : List String) :
    (assignIds n fs).length = fs.length := by
  induction fs generalizing n with
  | nil => rfl
  | cons f fs ih => simp [assignIds, ih]

theorem assignIds_get (n : ℤ) (fs : List String) (i : ℕ)
    (hi : i < (assignIds n fs).length) :
    ((assignIds n fs).get ⟨i, hi⟩).2 = n + i := by
  induction fs generalizing n i with
  | nil => simp [assignIds] at hi
  | cons f fs ih =>
    cases i with
    | zero => simp [assignIds]
    | succ j =>
      have hj : j < (assignIds (n + 1) fs).length := by
        simpa [assignIds] using hi
      have h := ih (n + 1) j hj
      simp only [assignIds, List.get_cons_succ]
      rw [h]
      push_cast
      ring

theorem foldl_max_le (l : List ℤ) (a : ℤ) :
    a ≤ l.foldl max a ∧ ∀ x ∈ l, x ≤ l.foldl max a := by
  induction l generalizing a with
  | nil => simp
  | cons b bs ih =>
    rw [List.foldl_cons]
    refine ⟨?_, ?_⟩
    · calc a ≤ max a b := le_max_left _ _
        _ ≤ bs.foldl max (max a b) := (ih (max a b)).1
    · intro x hx
      rcases List.mem_cons.mp hx with h | h
      · subst h
        calc x ≤ max a x := le_max_right _ _
          _ ≤ bs.foldl max (max a x) := (ih (max a x)).1
      · exact (ih (max a b)).2 x h

theorem le_max_project_id (t : OutTable) :
    ∀ v ∈ t.rows.filterMap (fun r => r.project_id), v ≤ max_project_id t := by
  intro v hv
  simp only [max_project_id]
  cases hl : t.rows.filterMap (fun r => r.project_id) with
  | nil => rw [hl] at hv; simp at hv
  | cons w ws =>
    rw [hl] at hv
    rcases List.mem_cons.mp hv with h | h
    · subst h; exact (foldl_max_le ws v).1
    · exact (foldl_max_le ws w).2 v h

/-- C8: the next identifier is the maximum persisted `project_id` plus one;
a missing or unreadable persisted file reads as zero rows, so allocation
starts at 1 and the run proceeds; the identifiers handed out over the file
list are strictly increasing in processing order. -/
theorem c8_id_allocation :
    (next_project_id .missing = 1 ∧ next_project_id .unreadable = 1 ∧
      (safe_read_existing_output .unreadable).rows = [] ∧
      (safe_read_existing_output .missing).rows = []) ∧
    (∀ t, next_project_id (.ok t) = max_project_id t + 1) ∧
    (∀ csv files, allocateIds csv files = assignIds (next_project_id csv) files) ∧
    (∀ csv files i j (hi : i < (allocateIds csv files).length)
        (hj : j < (allocateIds csv files).length), i < j →
      ((allocateIds csv files).get ⟨i, hi⟩).2 <
        ((allocateIds csv files).get ⟨j, hj⟩).2) := by
  refine ⟨⟨rfl, rfl, rfl, rfl⟩, fun t => rfl, fun csv files => rfl, ?_⟩
  intro csv files i j hi hj hij
  have hi' : i < (assignIds (next_project_id csv) files).length := hi
  have hj' : j < (assignIds (next_project_id csv) files).length := hj
  have e1 := assignIds_get (next_project_id csv) files i hi'
  have e2 := assignIds_get (next_project_id csv) files j hj'
  show ((assignIds (next_project_id csv) files).get ⟨i, hi'⟩).2 <
    ((assignIds (next_project_id csv) files).get ⟨j, hj'⟩).2
  rw [e1, e2]
  omega

/-- Witness for C8 at a concrete persisted table (max id 5) and two files. -/
theorem c8_id_allocation_witness :
    (0 : ℕ) < 1 ∧
    ((allocateIds (.ok ⟨true, true, [⟨some 5, "s", "r", "p"⟩]⟩) ["a", "b"]).get
        ⟨0, by decide⟩).2 <
      ((allocateIds (.ok ⟨true, true, [⟨some 5, "s", "r", "p"⟩]⟩) ["a", "b"]).get
        ⟨1, by decide⟩).2 := by
  exact ⟨by decide,
    c8_id_allocation.2.2.2 (.ok ⟨true, true, [⟨some 5, "s", "r", "p"⟩]⟩) ["a", "b"]
      0 1 (by decide) (by decide) (by decide)⟩

/-- C9: with the `source_type` column present the merge keeps exactly the
persisted rows of other sources (each such row appearing unchanged in the
merged output); with the column absent it falls back to a region filter; and
when the persisted ids are pairwise distinct and the fresh rows carry
distinct ids above the persisted maximum, the merged dataset has no
duplicate `project_id`. -/
theorem c9_merge_source_scoped :
    (∀ t : OutTable, t.hasSourceTypeCol = true → ∀ r,
      (r ∈ remove_rows_for_this_source t ↔ r ∈ t.rows ∧ r.source_type ≠ SOURCE_TYPE)) ∧
    (∀ t : OutTable, t.hasSourceTypeCol = false → t.hasRegionCol = true → ∀ r,
      (r ∈ remove_rows_for_this_source t ↔ r ∈ t.rows ∧ r.region ≠ regionBK)) ∧
    (∀ t newRows r, t.hasSourceTypeCol = true → r ∈ t.rows →
      r.source_type ≠ SOURCE_TYPE → r ∈ mergeDataset t newRows) ∧
    (∀ t newRows,
      List.Pairwise (· ≠ ·) (t.rows.filterMap (fun r => r.project_id)) →
      (∀ r ∈ newRows, ∃ k, r.project_id = some k ∧ max_project_id t < k) →
      List.Pairwise (· ≠ ·) (newRows.filterMap (fun r => r.project_id)) →
      List.Pairwise (· ≠ ·) ((mergeDataset t newRows).filterMap (fun r => r.project_id))) := by
  have hchar : ∀ t : OutTable, t.hasSourceTypeCol = true → ∀ r,
      (r ∈ remove_rows_for_this_source t ↔ r ∈ t.rows ∧ r.source_type ≠ SOURCE_TYPE) := by
    intro t ht r
    rw [remove_rows_for_this_source]
    cases hrows : t.rows with
    | nil => simp [hrows]
    | cons a as =>
      rw [← hrows]
      simp [hrows, ht, List.mem_filter, bne_iff_ne]
  have hsub : ∀ t : OutTable, (remove_rows_for_this_source t).Sublist t.rows := by
    intro t
    rw [remove_rows_for_this_source]
    split_ifs
    · exact List.nil_sublist _
    · exact List.filter_sublist _
    · exact List.filter_sublist _
    · exact List.Sublist.refl _
  refine ⟨hchar, ?_, ?_, ?_⟩
  · intro t ht hreg r
    rw [remove_rows_for_this_source]
    cases hrows : t.rows with
    | nil => simp [hrows]
    | cons a as =>
      rw [← hrows]
      simp [hrows, ht, hreg, List.mem_filter, bne_iff_ne]
  · intro t newRows r ht hr hsrc
    rw [mergeDataset]
    exact List.mem_append_left _ ((hchar t ht r).mpr ⟨hr, hsrc⟩)
  · intro t newRows hold hnew hnewdist
    rw [mergeDataset, List.filterMap_append, List.pairwise_append]
    refine ⟨hold.sublist ((hsub t).filterMap _), hnewdist, ?_⟩
    intro a haIn b hbIn
    obtain ⟨ra, hramem, hrapid⟩ := List.mem_filterMap.mp haIn
    have haRows : a ∈ t.rows.filterMap (fun r => r.project_id) :=
      List.mem_filterMap.mpr ⟨ra, (hsub t).subset hramem, hrapid⟩
    have hale : a ≤ max_project_id t := le_max_project_id t a haRows
    obtain ⟨rb, hrbmem, hrbpid⟩ := List.mem_filterMap.mp hbIn
    obtain ⟨k, hk, hkgt⟩ := hnew rb hrbmem
    rw [hk] at hrbpid
    have hbk : k = b := Option.some.inj hrbpid
    subst hbk
    omega

/-- Witness for C9 at a concrete two-source table and one fresh row. -/
theorem c9_merge_source_scoped_witness :
    (⟨true, true, [⟨some 1, "other src", "other region", "x"⟩,
       ⟨some 2, SOURCE_TYPE, "Béni Mellal-Khénifra", "y"⟩]⟩ : OutTable).hasSourceTypeCol = true ∧
    (⟨some 1, "other src", "other region", "x"⟩ : OutRow) ∈
      mergeDataset ⟨true, true, [⟨some 1, "other src", "other region", "x"⟩,
        ⟨some 2, SOURCE_TYPE, "Béni Mellal-Khénifra", "y"⟩]⟩
        [⟨some 3, SOURCE_TYPE, "Béni Mellal-Khénifra", "z"⟩] := by
  refine ⟨rfl, ?_⟩
  exact c9_merge_source_scoped.2.2.1
    ⟨true, true, [⟨some 1, "other src", "other region", "x"⟩,
      ⟨some 2, SOURCE_TYPE, "Béni Mellal-Khénifra", "y"⟩]⟩
    [⟨some 3, SOURCE_TYPE, "Béni Mellal-Khénifra", "z"⟩]
    ⟨some 1, "other src", "other region", "x"⟩ rfl (by decide) (by decide)

/-- C10: when the sector label matches in neither the left column nor the
full text, the sector is the constant `"CRI"` (never absent), and the
assembled record's `project_bank_category` always equals its `sector`. -/
theorem c10_sector_default :
    (∀ left_text full_text, reSearch reSectorLeft left_text = none →
      reSearch reSectorFull full_text = none →
      extract_sector_from_layout left_text full_text = "CRI") ∧
    (∀ f pid, (mkRecord f pid).project_bank_category = (mkRecord f pid).sector) := by
  refine ⟨?_, fun f pid => rfl⟩
  intro lft ful h1 h2
  simp [extract_sector_from_layout, h1, h2]

/-- Witness for C10 at empty column texts. -/
theorem c10_sector_default_witness :
    reSearch reSectorLeft "" = none ∧ reSearch reSectorFull "" = none ∧
    extract_sector_from_layout "" "" = "CRI" := by
  refine ⟨by decide, by decide, c10_sector_default.1 "" "" (by decide) (by decide)⟩

end CriBenimallal

theorem data_mk (l : List Char) : (String.mk l).data = l := rfl

namespace CriBenimallal

/-! ### Character sets for the reference claim -/

/-- The character set asserted by the claim: `[A-Z0-9-]`. -/
def claimRefChar (c : Char) : Bool :=
  ('A' ≤ c && c ≤ 'Z') || c.isDigit || c == '-'

/-- The character set actually produced: `[A-Z0-9_-]` (underscore is a `\w`
character and survives the filter). -/
def allowedRefChar (c : Char) : Bool :=
  ('A' ≤ c && c ≤ 'Z') || c.isDigit || c == '-' || c == '_'

/-- Common non-word punctuation: dropped both by Python's `[^\w\s\-]` filter
and by this embedding, hence safe in titles. -/
def refSafePunct : List Char :=
  ['’', '‘', '“', '”', '«', '»', '°', '…', '€', '–', '—', '•']

/-- The title alphabet on which `remove_accents` and the `\w` filter are
modelled faithfully: ASCII, precomposed Latin accents, and the safe
punctuation above. -/
def titleRefDomain (c : Char) : Bool :=
  decide (c.toNat ≤ 127) || (accentPairs.find? (fun p => p.1 == c)).isSome ||
    refSafePunct.contains c

def asciiChars : List Char := (List.range 128).map Char.ofNat

theorem mem_asciiChars (c : Char) (h : c.toNat ≤ 127) : c ∈ asciiChars :=
  List.mem_map.mpr ⟨c.toNat, List.mem_range.mpr (by omega), Char.ofNat_toNat c⟩

set_option maxRecDepth 8192 in
theorem accentPairs_fst_not_ascii : ∀ p ∈ accentPairs, 127 < p.1.toNat := by decide

set_option maxRecDepth 8192 in
theorem accentPairs_snd_ascii : ∀ p ∈ accentPairs, p.2.toNat ≤ 127 := by decide

set_option maxRecDepth 8192 in
theorem refSafePunct_no_accent :
    ∀ c ∈ refSafePunct, accentPairs.find? (fun p => p.1 == c) = none := by decide

set_option maxRecDepth 8192 in
theorem refSafePunct_not_kept :
    ∀ c ∈ refSafePunct, (wordCharRef c || isPySpace c || c == '-') = false := by decide

set_option maxRecDepth 8192 in
theorem ascii_upper_allowed :
    ∀ c ∈ asciiChars, (wordCharRef c || c == '-') = true →
      allowedRefChar (pyUpperChar c) = true := by decide

theorem stripAccent_of_ascii (c : Char) (h : c.toNat ≤ 127) : stripAccent c = c := by
  rw [stripAccent]
  have hf : accentPairs.find? (fun p => p.1 == c) = none := by
    rw [List.find?_eq_none]
    intro p hp hbeq
    have h1 := accentPairs_fst_not_ascii p hp
    have h2 : p.1 = c := by simpa using hbeq
    rw [h2] at h1
    omega
  rw [hf]
  rfl

/-- On the modelled title alphabet, a character that survives the `\w`
filter after accent stripping is ASCII. -/
theorem stripAccent_kept_ascii (c : Char) (hdom : titleRefDomain c = true)
    (hkeep : (wordCharRef (stripAccent c) || isPySpace (stripAccent c) ||
      stripAccent c == '-') = true) :
    (stripAccent c).toNat ≤ 127 := by
  rw [titleRefDomain, Bool.or_eq_true, Bool.or_eq_true] at hdom
  rcases hdom with (hascii | hacc) | hpunct
  · rw [stripAccent_of_ascii c (by simpa using hascii)]
    simpa using hascii
  · rcases Option.isSome_iff_exists.mp hacc with ⟨p, hp⟩
    rw [stripAccent, hp]
    exact accentPairs_snd_ascii p (List.mem_of_find?_eq_some hp)
  · have hmem : c ∈ refSafePunct := by
      simpa using hpunct
    have hnone := refSafePunct_no_accent c hmem
    have hid : stripAccent c = c := by rw [stripAccent, hnone]; rfl
    rw [hid] at hkeep
    rw [refSafePunct_not_kept c hmem] at hkeep
    simp at hkeep

theorem pyStrip_subset (s : String) : ∀ c ∈ (pyStrip s).data, c ∈ s.data := by
  intro c hc
  rw [pyStrip, data_mk, List.mem_reverse] at hc
  have h1 := (List.dropWhile_sublist (l := (s.data.dropWhile isPySpace).reverse)
    isPySpace).subset hc
  rw [List.mem_reverse] at h1
  exact (List.dropWhile_sublist isPySpace).subset h1

theorem dropHyphensEnds_subset (l : List Char) : ∀ c ∈ dropHyphensEnds l, c ∈ l := by
  intro c hc
  rw [dropHyphensEnds, List.mem_reverse] at hc
  have h1 := (List.dropWhile_sublist (l := (l.dropWhile (fun c => c == '-')).reverse)
    (fun c => c == '-')).subset hc
  rw [List.mem_reverse] at h1
  exact (List.dropWhile_sublist (fun c => c == '-')).subset h1

theorem collapseWsTo_mem (rep : Char) :
    ∀ l : List Char, ∀ c ∈ collapseWsTo rep l,
      c = rep ∨ (c ∈ l ∧ isPySpace c = false) := by
  intro l
  induction l with
  | nil => intro c hc; simp [collapseWsTo] at hc
  | cons a rest ih =>
    intro c hc
    cases rest with
    | nil =>
      simp only [collapseWsTo] at hc
      by_cases ha : isPySpace a = true
      · rw [if_pos ha] at hc
        simp at hc
        subst hc
        left; rfl
      · rw [if_neg ha] at hc
        simp at hc
        subst hc
        right
        exact ⟨by simp, by simpa using ha⟩
    | cons d rest2 =>
      simp only [collapseWsTo] at hc
      by_cases ha : isPySpace a = true
      · rw [if_pos ha] at hc
        by_cases hd : isPySpace d = true
        · rw [if_pos hd] at hc
          rcases ih c hc with h | ⟨hm, hs⟩
          · left; exact h
          · right; exact ⟨List.mem_cons_of_mem _ hm, hs⟩
        · rw [if_neg hd] at hc
          rcases List.mem_cons.mp hc with h | h
          · left; exact h
          · rcases ih c h with h2 | ⟨hm, hs⟩
            · left; exact h2
            · right; exact ⟨List.mem_cons_of_mem _ hm, hs⟩
      · rw [if_neg ha] at hc
        rcases List.mem_cons.mp hc with h | h
        · subst h
          right
          exact ⟨by simp, by simpa using ha⟩
        · rcases ih c h with h2 | ⟨hm, hs⟩
          · left; exact h2
          · right; exact ⟨List.mem_cons_of_mem _ hm, hs⟩

end CriBenimallal

namespace CriBenimallal

/-- Characters of a normalised reference token are uppercase ASCII letters,
digits, hyphens or underscores, for titles over the modelled alphabet. -/
theorem normalize_chars (s : String) (h : ∀ c ∈ s.data, titleRefDomain c = true) :
    ∀ c ∈ (normalize_for_reference s).data, allowedRefChar c = true := by
  intro c hc
  rw [normalize_for_reference] at hc
  by_cases hs : pyStrip s = ""
  · rw [if_pos hs] at hc
    have : ("" : String).data = [] := rfl
    rw [this] at hc
    simp at hc
  · rw [if_neg hs, data_mk] at hc
    rcases List.mem_map.mp hc with ⟨c0, hc0, hup⟩
    have hc1 := dropHyphensEnds_subset _ c0 hc0
    rcases collapseWsTo_mem '-' _ c0 hc1 with hdash | ⟨hmem, hnsp⟩
    · subst hdash
      rw [← hup]
      decide
    · rcases List.mem_filter.mp hmem with ⟨hmem2, hkeep⟩
      rw [remove_accents, data_mk] at hmem2
      rcases List.mem_map.mp hmem2 with ⟨c1, hc1mem, hstrip⟩
      have hdom : titleRefDomain c1 = true := h c1 (pyStrip_subset s c1 hc1mem)
      have hascii : c0.toNat ≤ 127 := by
        rw [← hstrip] at hkeep ⊢
        exact stripAccent_kept_ascii c1 hdom hkeep
      have hword : (wordCharRef c0 || c0 == '-') = true := by
        rw [Bool.or_eq_true, Bool.or_eq_true] at hkeep
        rw [Bool.or_eq_true]
        rcases hkeep with (hw | hsp) | hdsh
        · exact Or.inl hw
        · rw [hsp] at hnsp; simp at hnsp
        · exact Or.inr hdsh
      rw [← hup]
      exact ascii_upper_allowed c0 (mem_asciiChars c0 hascii) hword

theorem natDigitsAux_digits (fuel : ℕ) :
    ∀ (n : ℕ) (acc : List Char), (∀ c ∈ acc, c.isDigit = true) →
      ∀ c ∈ natDigitsAux fuel n acc, c.isDigit = true := by
  induction fuel with
  | zero => intro n acc hacc; exact hacc
  | succ f ih =>
    intro n acc hacc
    have hd : (Char.ofNat (48 + n % 10)).isDigit = true := by
      have h10 : n % 10 < 10 := Nat.mod_lt _ (by norm_num)
      set m := n % 10 with hm
      interval_cases m <;> decide
    have hacc2 : ∀ c ∈ Char.ofNat (48 + n % 10) :: acc, c.isDigit = true := by
      intro c hc
      rcases List.mem_cons.mp hc with h | h
      · subst h; exact hd
      · exact hacc c h
    simp only [natDigitsAux]
    split
    · exact hacc2
    · exact ih (n / 10) _ hacc2

theorem natToString_digits (n : ℕ) : ∀ c ∈ (natToString n).data, c.isDigit = true := by
  intro c hc
  rw [natToString, data_mk] at hc
  exact natDigitsAux_digits (n + 1) n [] (by intro c hc; simp at hc) c hc

theorem projectReference_shape (title : String) (pid : ℕ) :
    projectReference title pid =
      normalize_for_reference regionBK ++ "-" ++ normalize_for_reference title ++
        "-" ++ natToString pid ∨
    projectReference title pid =
      normalize_for_reference regionBK ++ "-" ++
        String.mk ((normalize_for_reference title).data.take 50) ++ "-" ++ natToString pid := by
  simp only [projectReference]
  split_ifs
  · right; rfl
  · left; rfl

set_option maxRecDepth 8192 in
theorem region_chars :
    ∀ c ∈ (normalize_for_reference regionBK).data, allowedRefChar c = true := by decide

/-- C6 counterexample: a title containing an underscore (a `\w` character)
keeps it through `normalize_for_reference`, so the emitted reference
contains a character outside `[A-Z0-9-]`. -/
theorem c6_counterexample :
    projectReference "a_b" 7 = "BENI-MELLAL-KHENIFRA-A_B-7" ∧
    (projectReference "a_b" 7).data.all claimRefChar = false := by
  exact ⟨by decide, by decide⟩

/-- C6 (amended): for titles over ASCII, precomposed Latin accents and
common punctuation, the emitted `project_reference` contains no diacritics
and only characters from `[A-Z0-9_-]` (underscores survive the `\w`
filter); it always ends with `-` followed by the decimal `project_id`; and
it is region token, title token (possibly sliced to its first 50
characters — never the region or the id) and id joined by hyphens. -/
theorem c6_reference_amended :
    ∀ (title : String) (pid : ℕ),
      (∀ c ∈ title.data, titleRefDomain c = true) →
      (∀ c ∈ (projectReference title pid).data, allowedRefChar c = true) ∧
      (∃ pre, (projectReference title pid).data = pre ++ ('-' :: (natToString pid).data)) ∧
      (projectReference title pid =
        normalize_for_reference regionBK ++ "-" ++ normalize_for_reference title ++
          "-" ++ natToString pid ∨
       projectReference title pid =
        normalize_for_reference regionBK ++ "-" ++
          String.mk ((normalize_for_reference title).data.take 50) ++ "-" ++
          natToString pid) := by
  intro title pid h
  have hdash : (("-" : String)).data = ['-'] := rfl
  have htitle := normalize_chars title h
  refine ⟨?_, ?_, projectReference_shape title pid⟩
  · intro c hc
    rcases projectReference_shape title pid with hsh | hsh <;>
      rw [hsh] at hc <;>
      simp only [String.data_append, hdash, data_mk, List.mem_append, List.mem_cons,
        List.not_mem_nil, or_false] at hc
    · rcases hc with (((hre | hd1) | ht) | hd2) | hn
      · exact region_chars c hre
      · subst hd1; decide
      · exact htitle c ht
      · subst hd2; decide
      · have := natToString_digits pid c hn
        simp [allowedRefChar, this]
    · rcases hc with (((hre | hd1) | ht) | hd2) | hn
      · exact region_chars c hre
      · subst hd1; decide
      · exact htitle c (List.take_subset _ _ ht)
      · subst hd2; decide
      · have := natToString_digits pid c hn
        simp [allowedRefChar, this]
  · rcases projectReference_shape title pid with hsh | hsh <;> rw [hsh]
    · refine ⟨(normalize_for_reference regionBK).data ++ '-' ::
        (normalize_for_reference title).data, ?_⟩
      simp [String.data_append, hdash]
    · refine ⟨(normalize_for_reference regionBK).data ++ '-' ::
        (normalize_for_reference title).data.take 50, ?_⟩
      simp [String.data_append, hdash]

/-- Witness for C6 at a concrete accented title with punctuation. -/
theorem c6_reference_amended_witness :
    (∀ c ∈ ("Centre d’Appel n°2 Béni" : String).data, titleRefDomain c = true) ∧
    (∀ c ∈ (projectReference "Centre d’Appel n°2 Béni" 12).data,
      allowedRefChar c = true) ∧
    (∃ pre, (projectReference "Centre d’Appel n°2 Béni" 12).data =
      pre ++ ('-' :: (natToString 12).data)) := by
  have h := c6_reference_amended "Centre d’Appel n°2 Béni" 12 (by decide)
  exact ⟨by decide, h.1, h.2.1⟩

end CriBenimallal
